import Mathlib

/-!
# nslookup: query composition and session engine

A shallow embedding of `main.go` (package `main` of chuacw/nslookup) and the
properties of its lookup routine `internalnslookup`, its renderer
`printAnswer`, the reverse-name helper `ipToArpa` and the interactive loop
`interactiveNSlookup`.

Conventions of the embedding

* Go strings are Lean `String`s (sequences of Unicode characters).
* Go slices are Lean lists; a slice that is only ever built by `append` from
  `nil` is `nil` exactly when it is empty, so `x == nil` is `x = []`.
* A run-time panic (index out of range, nil dereference) is an explicit
  result of the embedded function.
* The standard library and the DNS library are external: the functions of
  them that the program calls are the fields of `Env`.  Calls whose result
  depends on the outside world (`LookupAddr`, `Exchange`, `dns.Id`) receive
  the value of a clock that ticks at every such call.
-/

namespace Nslookup

/-! ## Strings -/

namespace strings

/-- Pieces of a character list between the occurrences of `sep`. -/
def splitChars (sep : Char) : List Char → List (List Char)
  | [] => [[]]
  | c :: cs =>
    if c = sep then [] :: splitChars sep cs
    else
      match splitChars sep cs with
      | [] => [[c]]
      | p :: ps => (c :: p) :: ps

/-- Go `strings.Split(s, sep)` for a separator of one character: the
substrings of `s` between the separators, always at least one. -/
def Split (s : String) (sep : Char) : List String :=
  (splitChars sep s.data).map String.mk

/-- Go `strings.TrimSuffix(s, suffix)` for a suffix of one character: `s`
without that character at its end, if it ends in it (one occurrence only). -/
def TrimSuffix (s : String) (suffix : Char) : String :=
  if s.data.getLast? = some suffix then String.mk s.data.dropLast else s

/-- Go `strings.Map(mapping, s)`: the mapping applied to every character. -/
def Map (mapping : Char → Char) (s : String) : String :=
  String.mk (s.data.map mapping)

end strings

/-! ## DNS library data (github.com/miekg/dns) -/

/-- Record type numbers of the DNS library (`dns.TypeA`, ...). -/
def TypeA : Nat := 1
def TypeNS : Nat := 2
def TypeCNAME : Nat := 5
def TypeSOA : Nat := 6
def TypePTR : Nat := 12
def TypeMX : Nat := 15
def TypeTXT : Nat := 16
def TypeAAAA : Nat := 28
def TypeSRV : Nat := 33
def TypeDNSKEY : Nat := 48
def TypeANY : Nat := 255
def ClassINET : Nat := 1

/-- A `dns.Question`. -/
structure Question where
  Name : String
  Qtype : Nat
  Qclass : Nat
deriving DecidableEq, Repr

/-- A resource record `dns.RR`, by dynamic type, with the fields the
program reads; `other` is every record type the program has no case for. -/
inductive RR where
  | A (A : String)
  | AAAA (AAAA : String)
  | TXT (Txt : List String)
  | DNSKEY (Flags Protocol Algorithm : Nat) (PublicKey : String)
  | CNAME (Target : String)
  | PTR (Ptr : String)
  | MX (Preference : Nat) (Mx : String)
  | NS (Ns : String)
  | SOA (Ns Mbox : String) (Serial Refresh Retry Expire Minttl : Nat)
  | other (rrtype : Nat)
deriving DecidableEq, Repr

/-- A `dns.Msg`: the header fields the program reads or writes and the
question, answer and authority sections. -/
structure Msg where
  Id : Nat := 0
  RecursionDesired : Bool := false
  Truncated : Bool := false
  Question : List Question := []
  Answer : List RR := []
  Ns : List RR := []
deriving DecidableEq, Repr

/-- A `dns.Client`: its transport mode `Net`. -/
structure Client where
  Net : String := ""
deriving DecidableEq, Repr

/-- What `c.Exchange` returns: the response `r` (`none` is the nil pointer)
and the error `err` (`none` is nil). -/
structure ExchResult where
  r : Option Msg
  err : Option String
deriving DecidableEq, Repr

/-- The external collaborators: standard library and DNS library calls. -/
structure Env where
  /-- Go `unicode.ToUpper`, so that `strings.ToUpper` is `strings.Map upper` -/
  upper : Char → Char
  /-- Go `unicode.ToLower`, so that `strings.ToLower` is `strings.Map lower` -/
  lower : Char → Char
  /-- The library function `dns.Fqdn` -/
  Fqdn : String → String
  /-- Go `net.JoinHostPort` -/
  JoinHostPort : String → String → String
  /-- Go `net.LookupAddr` at a clock value; `none` is a non-nil error -/
  LookupAddr : Nat → String → Option (List String)
  /-- The library method `c.Exchange(&msg, nameserver)` at a clock value -/
  Exchange : Nat → Client → Msg → String → ExchResult
  /-- The library function `dns.Id()` at a clock value -/
  Id : Nat → Nat
  /-- The library table `dns.AlgorithmToString` -/
  AlgorithmToString : Nat → String

/-- Go `strings.ToUpper`. -/
def Env.ToUpper (env : Env) (s : String) : String := strings.Map env.upper s

/-- Go `strings.ToLower`. -/
def Env.ToLower (env : Env) (s : String) : String := strings.Map env.lower s

/-- The library method `(*Msg).SetQuestion(z, t)`: a fresh id, the
recursion-desired flag set, and the question section replaced by the one
question `z`, `t`, class INET. -/
def Msg.SetQuestion (dns : Msg) (id : Nat) (z : String) (t : Nat) : Msg :=
  { dns with Id := id, RecursionDesired := true, Question := [⟨z, t, ClassINET⟩] }

/-! ## main.go -/

/-- Source `secondsToMinutes`. -/
def secondsToMinutes (inSeconds : Nat) : String :=
  let minutes := inSeconds / 60
  let s := if minutes > 1 then "s" else ""
  toString minutes ++ " min" ++ s

/-- Source `ipToArpa`: `none` is the index-out-of-range panic of `parts[3]`
(or a lower index) on an input of fewer than four components. -/
def ipToArpa (ip : String) : Option String :=
  let parts := strings.Split ip '.'
  match parts[3]?, parts[2]?, parts[1]?, parts[0]? with
  | some p3, some p2, some p1, some p0 =>
    some (p3 ++ "." ++ p2 ++ "." ++ p1 ++ "." ++ p0 ++ ".in-addr.arpa")
  | _, _, _, _ => none

/-- Source `addQuestion`. -/
def addQuestion (dnsMsg : Msg) (id : Nat) (z : String) (t : Nat) : Msg :=
  { dnsMsg with Id := id, RecursionDesired := true,
                Question := dnsMsg.Question ++ [⟨z, t, ClassINET⟩] }

/-! ### Output -/

/-- An argument of a formatted print. -/
inductive Arg where
  | str (s : String)
  | num (n : Nat)
deriving DecidableEq, Repr

/-- One call of `fmt.Print`, `fmt.Println` or `fmt.Printf`, with its
arguments (the format string is kept, not interpreted). -/
inductive Out where
  | Print (s : String)
  | Println (args : List String)
  | Printf (format : String) (args : List Arg)
deriving DecidableEq, Repr

/-- Source `printHeader`. -/
def printHeader (target : String) (r : Msg) : List Out :=
  [.Println ["Name: ", target], .Print "Address"]
    ++ (if r.Answer.length > 1 then [.Print "es"] else [])
    ++ [.Println [":"]]

/-- The seven lines printed for an SOA record. -/
def printSOA (Ns Mbox : String) (Serial Refresh Retry Expire Minttl : Nat) : List Out :=
  [ .Printf "\tprimary name server = %s\n" [.str Ns],
    .Printf "\tresponsible mail addr = %s\n" [.str Mbox],
    .Printf "\tserial  = %d\n" [.num Serial],
    .Printf "\trefresh = %d (%s)\n" [.num Refresh, .str (secondsToMinutes Refresh)],
    .Printf "\tretry   = %d (%s)\n" [.num Retry, .str (secondsToMinutes Retry)],
    .Printf "\texpire  = %d (%s)\n" [.num Expire, .str (secondsToMinutes Expire)],
    .Printf "\tdefault TTL = %d (%s)\n" [.num Minttl, .str (secondsToMinutes Minttl)] ]

/-- What a piece of printing code did: its output and whether it stopped in
a panic; `vPrintHeader` is the flag behind the pointer of that name. -/
structure Printed where
  out : List Out
  panicked : Bool
  vPrintHeader : Bool
deriving DecidableEq, Repr

/-- The second type switch of the answer loop of `printAnswer` (lines
133-194), for one record: the output and whether `txt.Txt[0]` panicked. -/
def printRecord (env : Env) (target : String) : RR → List Out × Bool
  | .A a => ([.Printf "\t%s\n" [.str a]], false)
  | .AAAA a => ([.Printf "\t%s\n" [.str a]], false)
  | .TXT txt =>
    match txt[0]? with
    | some t0 =>
      ([.Printf "%s  text = \n" [.str target], .Printf "\t\"%s\"\n\n" [.str t0]], false)
    | none => ([.Printf "%s  text = \n" [.str target]], true)
  | .DNSKEY flags protocol algorithm publicKey =>
    ([ .Printf "Flags: %d\n" [.num flags],
       .Printf "Protocol: %d\n" [.num protocol],
       .Printf "Algorithm: %s\n" [.str (env.AlgorithmToString algorithm)],
       .Printf "Public Key: %s\n" [.str publicKey] ], false)
  | .CNAME t => ([.Printf "%s\tcanonical name = %s\n" [.str target, .str t]], false)
  | .PTR p => ([.Printf "%s\tname = %s\n" [.str target, .str p]], false)
  | .MX preference mx =>
    ([.Printf "%s\tMX preference = %d, mail exchanger = %s\n"
        [.str target, .num preference, .str mx]], false)
  | .NS ns => ([.Printf "%s\t nameserver = %s\n" [.str target, .str ns]], false)
  | .SOA ns mbox serial refresh retry expire minttl =>
    (printSOA ns mbox serial refresh retry expire minttl, false)
  | .other _ => ([], false)

/-- The answer loop of `printAnswer` (lines 125-195) over the records that
remain, `r` being the whole response. -/
def printAnswers (env : Env) (target : String) (r : Msg) : Bool → List RR → Printed
  | vPrintHeader, [] => { out := [], panicked := false, vPrintHeader := vPrintHeader }
  | vPrintHeader, ans :: rest =>
    let isAddr := match ans with
      | .A _ => true
      | .AAAA _ => true
      | _ => false
    let hdr := if isAddr && !vPrintHeader then printHeader target r else []
    let vPrintHeader1 := if isAddr && !vPrintHeader then true else vPrintHeader
    match printRecord env target ans with
    | (o, true) => { out := hdr ++ o, panicked := true, vPrintHeader := vPrintHeader1 }
    | (o, false) =>
      let p := printAnswers env target r vPrintHeader1 rest
      { p with out := hdr ++ o ++ p.out }

/-- The authority loop of `printAnswer` (lines 199-213). -/
def printNs : List RR → List Out
  | [] => []
  | .SOA ns mbox serial refresh retry expire minttl :: rest =>
    printSOA ns mbox serial refresh retry expire minttl ++ printNs rest
  | _ :: rest => printNs rest

/-- The format of the non-existent-domain message (line 121). -/
def nonExistentFormat : String := "*** UnKnown can't find %s: Non-existent domain\n"

/-- Source `printAnswer`; `r = none` is the nil pointer, `err = none` the nil
error.  A panic is `msg.Question[0]` on an empty question section or
`txt.Txt[0]` on an empty text record. -/
def printAnswer (env : Env) (msg : Msg) (r : Option Msg) (target : String)
    (err : Option String) (vPrintHeader : Bool) : Printed :=
  let nonExistent : Printed :=
    { out := [.Printf nonExistentFormat [.str target]], panicked := false,
      vPrintHeader := vPrintHeader }
  match err with
  | some e =>
    { out := [.Printf "Error: %v" [.str e]], panicked := false, vPrintHeader := vPrintHeader }
  | none =>
    match r with
    | none => nonExistent
    | some r =>
      let rest : Printed :=
        let p := printAnswers env target r vPrintHeader r.Answer
        if p.panicked then p
        else if r.Ns ≠ [] then { p with out := p.out ++ [.Println [target]] ++ printNs r.Ns }
        else p
      if r.Answer = [] then
        match msg.Question[0]? with
        | none => { out := [], panicked := true, vPrintHeader := vPrintHeader }
        | some q => if q.Qtype = TypeA ∨ q.Qtype = TypeAAAA then nonExistent else rest
      else rest

/-! ### The lookup -/

/-- Package variable `dnsClient`: the zero client, assigned nowhere. -/
def dnsClient : Client := { Net := "" }

/-- Package variable `defaultMsg`: the zero message, assigned nowhere. -/
def defaultMsg : Msg := {}

def defaultNameServer : String := "8.8.8.8"
def defaultPort : String := "53"
def defaultLookupType : String := "A+AAAA"

/-- The map `m` of `internalnslookup` (lines 258-270). -/
def m : List (String × Nat) :=
  [ ("A", TypeA), ("ANY", TypeANY), ("AAAA", TypeAAAA), ("CNAME", TypeCNAME),
    ("DNSKEY", TypeDNSKEY), ("MX", TypeMX), ("NS", TypeNS), ("PTR", TypePTR),
    ("SOA", TypeSOA), ("SRV", TypeSRV), ("TXT", TypeTXT) ]

/-- One call of `c.Exchange`: the client, message and server address it was
given and what it returned. -/
structure ExchangeCall where
  c : Client
  msg : Msg
  nameserver : String
  result : ExchResult
deriving DecidableEq, Repr

/-- Record of one iteration of the loop of `internalnslookup` that reached
line 365: the token, its record type, the client's `Net` before the first
exchange, the exchanges in order, the client's `Net` when the iteration ended
(or panicked), and the final value of `r`. -/
structure SubQuery where
  token : String
  dnslookupType : Nat
  netBefore : String
  calls : List ExchangeCall
  netAfter : String
  r : Option Msg
deriving DecidableEq, Repr

/-- The variables of `internalnslookup` that live across the iterations of
its loop, the clock, and the record of the iterations so far. -/
structure LoopState where
  clock : Nat
  target : String
  msg : Msg
  c : Client
  mainR : Msg
  log : List SubQuery
deriving DecidableEq, Repr

/-- How one iteration ends: normally, or in a panic (with the state then). -/
inductive Step where
  | ok (st : LoopState)
  | panic (st : LoopState)
deriving DecidableEq, Repr

/-- The state a step ended in. -/
def Step.state : Step → LoopState
  | .ok st => st
  | .panic st => st

/-- Lines 280-284: the record type of a token. -/
def dnslookupTypeOf (env : Env) (nslookupType : String) : Nat :=
  let lookupType := env.ToUpper nslookupType
  match m.lookup lookupType with
  | some t => t
  | none => TypeA

/-- The `switch` of lines 286-362: the new `target`, `msg` and clock, or
`none` when `ipToArpa` panics. -/
def buildQuestion (env : Env) (recursionDesired : Bool) (st : LoopState)
    (dnslookupType : Nat) : Option (String × Msg × Nat) :=
  let caseANY (target : String) : String × Msg × Nat :=
    let msg := st.msg.SetQuestion (env.Id st.clock) (env.Fqdn target) dnslookupType
    (target, { msg with RecursionDesired := recursionDesired }, st.clock + 1)
  if dnslookupType = TypePTR then
    match ipToArpa st.target with
    | none => none
    | some target => some (caseANY target)
  else if dnslookupType ∈ [TypeANY, TypeMX, TypeNS, TypeSOA, TypeTXT, TypeDNSKEY, TypeSRV] then
    some (caseANY st.target)
  else if dnslookupType = TypeCNAME then
    some (st.target, st.msg.SetQuestion (env.Id st.clock) (env.Fqdn st.target) dnslookupType,
      st.clock + 1)
  else if dnslookupType = TypeA ∨ dnslookupType = TypeAAAA then
    some (st.target, st.msg.SetQuestion (env.Id st.clock) (env.Fqdn st.target) dnslookupType,
      st.clock + 1)
  else
    some (st.target, st.msg, st.clock)

/-- The body of the loop of `internalnslookup` (lines 280-385) for one
token. -/
def subQuery (env : Env) (recursionDesired : Bool) (nameserver : String)
    (st : LoopState) (nslookupType : String) : Step :=
  let dnslookupType := dnslookupTypeOf env nslookupType
  match buildQuestion env recursionDesired st dnslookupType with
  | none => .panic st
  | some (target, msg, clock) =>
    let res1 := env.Exchange clock st.c msg nameserver
    let call1 : ExchangeCall := ⟨st.c, msg, nameserver, res1⟩
    match res1.r with
    | none =>
      -- r.MsgHdr.Truncated on the nil response
      .panic { st with clock := clock + 1, target := target, msg := msg,
                       log := st.log ++ [⟨nslookupType, dnslookupType, st.c.Net, [call1],
                                          st.c.Net, none⟩] }
    | some r1 =>
      let (c, calls, r, clock) :=
        if r1.Truncated then
          let c1 : Client := { st.c with Net := "tcp" }
          let res2 := env.Exchange (clock + 1) c1 msg nameserver
          let c2 : Client := { c1 with Net := "udp" }
          (c2, [call1, ⟨c1, msg, nameserver, res2⟩], res2.r, clock + 2)
        else (st.c, [call1], some r1, clock + 1)
      let entry : SubQuery := ⟨nslookupType, dnslookupType, st.c.Net, calls, c.Net, r⟩
      match r with
      | none =>
        -- r.Answer on the nil response of the re-exchange
        .panic { st with clock := clock, target := target, msg := msg, c := c,
                         log := st.log ++ [entry] }
      | some r =>
        .ok { clock := clock, target := target, msg := msg, c := c,
              mainR := { st.mainR with Answer := st.mainR.Answer ++ r.Answer,
                                       Ns := st.mainR.Ns ++ r.Ns },
              log := st.log ++ [entry] }

/-- The loop of `internalnslookup` over the tokens that remain. -/
def queryLoop (env : Env) (recursionDesired : Bool) (nameserver : String) :
    LoopState → List String → Step
  | st, [] => .ok st
  | st, nslookupType :: rest =>
    match subQuery env recursionDesired nameserver st nslookupType with
    | .ok st1 => queryLoop env recursionDesired nameserver st1 rest
    | .panic st1 => .panic st1

/-- The arguments `printAnswer` is called with at line 387. -/
structure Handed where
  msg : Msg
  r : Msg
  target : String
  err : Option String
deriving DecidableEq, Repr

/-- What a call of `internalnslookup` did: the clock afterwards, the
output, the record of its sub-queries, whether it panicked, and what it
handed to `printAnswer` if it got there. -/
structure Run where
  clock : Nat
  out : List Out
  log : List SubQuery
  panicked : Bool
  handed : Option Handed
deriving DecidableEq, Repr

/-- Lines 228-235 and 243: the host and the port of the server argument. -/
def hostAndPort (server : String) : String × String :=
  match strings.Split server ':' with
  | p0 :: p1 :: _ => (p0, p1)
  | _ => (server, defaultPort)

/-- Source `internalnslookup`, with the package variable `recursionDesired`
and the clock as arguments. -/
def internalnslookup (env : Env) (clock : Nat) (recursionDesired : Bool)
    (nslookupType target server : String) : Run :=
  let (server, port) := hostAndPort server
  let c := dnsClient
  let port := if c.Net = "tcp" then "443" else port
  let nameserver := env.JoinHostPort server port
  match env.LookupAddr clock server with
  | none => { clock := clock + 1, out := [], log := [], panicked := false, handed := none }
  | some names =>
    -- from here on `err`, the error of `LookupAddr`, is nil
    let err : Option String := none
    match names[0]? with
    | none => { clock := clock + 1, out := [], log := [], panicked := true, handed := none }
    | some name0 =>
      let out0 : List Out :=
        [.Println ["Server:  ", name0], .Println ["Address: ", server], .Println []]
      let msg := defaultMsg
      let nslookupTypeParts := strings.Split nslookupType '+'
      let bPrintHeader := false
      let mainR : Msg := {}
      match queryLoop env recursionDesired nameserver
          ⟨clock + 1, target, msg, c, mainR, []⟩ nslookupTypeParts with
      | .panic st =>
        { clock := st.clock, out := out0, log := st.log, panicked := true, handed := none }
      | .ok st =>
        -- the `err` of the loop body is another variable, out of scope here
        let p := printAnswer env st.msg (some st.mainR) st.target err bPrintHeader
        { clock := st.clock, out := out0 ++ p.out, log := st.log, panicked := p.panicked,
          handed := some ⟨st.msg, st.mainR, st.target, err⟩ }

/-! ### The interactive session -/

/-- The variables of `interactiveNSlookup` that live across the iterations
of its loop, with the package variable `recursionDesired`. -/
structure Session where
  origserver : String
  nslookupType : String
  recursionDesired : Bool
  domainNameOrCmd : String
deriving DecidableEq, Repr

/-- The help text (lines 449-456). -/
def helpText : List Out :=
  [ .Println ["NAME\t\t- print info about the host/domain NAME using default server"],
    .Println ["NAME1 NAME2\t- as above, but use NAME2 as server"],
    .Println ["help or ?\t- print info on common commands"],
    .Println ["set OPTION\t- set an option"],
    .Println ["    [no]recurse\t- ask for recursive answer to query"],
    .Println ["    type=X\t- set query type (ex. A,AAAA,A+AAAA,ANY,CNAME,MX,NS,PTR,SOA,SRV)"],
    .Println ["exit\t\t- exit the program"],
    .Println [] ]

/-- Where the command analysis of one iteration (lines 437-537) ends: at the
`return` of `exit`, or at the label `dolookup` with the variables, the
iteration's `server` and the output so far. -/
inductive Dispatch where
  | exit
  | dolookup (s : Session) (server : String) (out : List Out)
deriving DecidableEq, Repr

/-- The `set` branch (lines 464-499). -/
def setCommand (env : Env) (s : Session) (parts : List String) : Session × List Out :=
  let params := match parts[1]? with
    | some p1 => env.ToLower p1
    | none => ""
  let paramparts := strings.Split params '='
  match paramparts with
  | [_] =>
    if params = "all" then
      (s, [ .Printf " port=%s\n" [.str defaultPort],
            .Printf " type=%s\n" [.str s.nslookupType],
            .Printf " server=%s\n" [.str s.origserver],
            .Println [] ])
    else if params = "recurse" then ({ s with recursionDesired := true }, [])
    else if params = "norecurse" then ({ s with recursionDesired := false }, [])
    else (s, [])
  | [p0, p1] =>
    if p0 = "type" ∨ p0 = "querytype" then ({ s with nslookupType := p1 }, [])
    else (s, [])
  | _ => (s, [])

/-- Lines 431-537 of `interactiveNSlookup`: the analysis of the line `text0`
that the scanner holds (`reader.Text()`). -/
def dispatch (env : Env) (s : Session) (text0 : String) : Dispatch :=
  let server := s.origserver
  let text := strings.TrimSuffix text0 ' '
  let parts := strings.Split text ' '
  match parts with
  | [] => .dolookup s server []
  | [p0] =>
    let cmd := env.ToLower p0
    if cmd = "exit" then .exit
    else if cmd = "?" ∨ cmd = "help" then .dolookup s server helpText
    else .dolookup { s with domainNameOrCmd := p0 } server []
  | p0 :: p1 :: _ =>
    let cmd := env.ToLower p0
    if cmd = "set" then
      let (s1, out) := setCommand env s parts
      .dolookup s1 server out
    else if cmd = "?" ∨ cmd = "help" then .dolookup s server []
    else if cmd = "server" then .dolookup { s with origserver := p1 } server []
    else .dolookup { s with domainNameOrCmd := cmd } p1 []

/-- The arguments of one call of `internalnslookup` from the loop. -/
structure LookupCall where
  recursionDesired : Bool
  nslookupType : String
  target : String
  server : String
deriving DecidableEq, Repr

/-- How one iteration of the loop of `interactiveNSlookup` ends: with the
`return`, with the next iteration to come, or in a panic of the lookup. -/
inductive Iter where
  | exit (out : List Out)
  | next (s : Session) (clock : Nat) (out : List Out) (lookup : Option LookupCall)
  | panic (out : List Out) (lookup : LookupCall)
deriving DecidableEq, Repr

/-- One iteration of the loop of `interactiveNSlookup` (lines 431-543) on the
text the scanner holds after `reader.Scan()`. -/
def iteration (env : Env) (s : Session) (clock : Nat) (text : String) : Iter :=
  let prompt : List Out := [.Print "> "]
  match dispatch env s text with
  | .exit => .exit prompt
  | .dolookup s1 server out =>
    if s1.domainNameOrCmd ≠ "" then
      let call : LookupCall := ⟨s1.recursionDesired, s1.nslookupType, s1.domainNameOrCmd, server⟩
      let run := internalnslookup env clock s1.recursionDesired s1.nslookupType
        s1.domainNameOrCmd server
      if run.panicked then .panic (prompt ++ out ++ run.out) call
      else .next { s1 with domainNameOrCmd := "" } run.clock
        (prompt ++ out ++ run.out ++ [.Println []]) (some call)
    else .next s1 clock (prompt ++ out) none

/-- The scanner over the lines of the input that remain: `reader.Scan()`
followed by `reader.Text()`.  At the end of the input `Scan` reports false,
which the program does not look at, and `Text` is the empty string. -/
def scan : List String → String × List String
  | [] => ("", [])
  | line :: rest => (line, rest)

/-- How a run of the session stands: returned, panicked, or still in the
loop after the iterations allowed. -/
inductive Status where
  | returned
  | panicked
  | running
deriving DecidableEq, Repr

/-- A run of the session: how it stands, the variables then, the output and
the lookups made. -/
structure SessionRun where
  status : Status
  session : Session
  out : List Out
  lookups : List LookupCall
deriving DecidableEq, Repr

/-- The loop of `interactiveNSlookup`, for at most `fuel` iterations, on the
lines `input` of the standard input that remain. -/
def sessionLoop (env : Env) : Nat → Session → Nat → List String → SessionRun
  | 0, s, _, _ => { status := .running, session := s, out := [], lookups := [] }
  | fuel + 1, s, clock, input =>
    let (text, rest) := scan input
    match iteration env s clock text with
    | .exit out => { status := .returned, session := s, out := out, lookups := [] }
    | .panic out call => { status := .panicked, session := s, out := out, lookups := [call] }
    | .next s1 clock1 out lookup =>
      let run := sessionLoop env fuel s1 clock1 rest
      { run with out := out ++ run.out, lookups := lookup.toList ++ run.lookups }

/-- The variables of `interactiveNSlookup` when its loop starts (lines
417-419, 428) and the initial `recursionDesired` (line 219). -/
def initialSession : Session :=
  { origserver := defaultNameServer, nslookupType := defaultLookupType,
    recursionDesired := false, domainNameOrCmd := "" }

/-- Source `interactiveNSlookup`, for at most `fuel` iterations of its loop,
on the lines `input` of the standard input. -/
def interactiveNSlookup (env : Env) (fuel : Nat) (input : List String) : SessionRun :=
  sessionLoop env fuel initialSession 0 input

/-! ## Specification vocabulary -/

/-- The type table in the words of the specification: the record type of an
upper-cased token, the address type `A` for a token that is not in the table. -/
def recordTypeSpec (upperToken : String) : Nat :=
  if upperToken = "A" then TypeA
  else if upperToken = "AAAA" then TypeAAAA
  else if upperToken = "ANY" then TypeANY
  else if upperToken = "CNAME" then TypeCNAME
  else if upperToken = "DNSKEY" then TypeDNSKEY
  else if upperToken = "MX" then TypeMX
  else if upperToken = "NS" then TypeNS
  else if upperToken = "PTR" then TypePTR
  else if upperToken = "SOA" then TypeSOA
  else if upperToken = "SRV" then TypeSRV
  else if upperToken = "TXT" then TypeTXT
  else TypeA

/-- Every exchange the transport is asked for returns a response. -/
def Responsive (env : Env) : Prop :=
  ∀ (t : Nat) (c : Client) (msg : Msg) (ns : String), (env.Exchange t c msg ns).r ≠ none

/-- The reverse lookup of the server's host (line 245) succeeds with at
least one name. -/
def ServerResolves (env : Env) (clock : Nat) (server : String) : Prop :=
  ∃ name names, env.LookupAddr clock (hostAndPort server).1 = some (name :: names)

/-- No token asks for a pointer record, or the target has the four
components `ipToArpa` reads. -/
def PtrSafe (env : Env) (toks : List String) (target : String) : Prop :=
  (∀ tok ∈ toks, dnslookupTypeOf env tok ≠ TypePTR) ∨ 4 ≤ (strings.Split target '.').length

/-- The two ways the DNS library delivers a query: over UDP (best effort)
or over TCP (reliable). -/
inductive Transport where
  | bestEffort
  | reliable
deriving DecidableEq, Repr

/-- The transport the DNS library uses for a client's `Net`, after the
library's documentation of that field: `tcp` and `tcp-tls` start a TCP query,
every other value, the default `""` included, a UDP one. -/
def transportOf (net : String) : Transport :=
  if net = "tcp" ∨ net = "tcp-tls" then .reliable else .bestEffort

/-- The server address `internalnslookup` exchanges with (lines 229-243). -/
def nameserverOf (env : Env) (server : String) : String :=
  env.JoinHostPort (hostAndPort server).1
    (if dnsClient.Net = "tcp" then "443" else (hostAndPort server).2)

/-- What the record of a sub-query says when it was written by the loop of
`internalnslookup` exchanging with the server address `ns`: the client was in
mode `""` or `udp` before; every recorded call went to `ns` and its result is
what the transport returned for the recorded client and message; and there
was one call, or two after a truncated first response. -/
def IssuedBy (env : Env) (ns : String) (e : SubQuery) : Prop :=
  (e.netBefore = "" ∨ e.netBefore = "udp")
    ∧ (∀ call ∈ e.calls, call.nameserver = ns
        ∧ ∃ t, call.result = env.Exchange t call.c call.msg call.nameserver)
    ∧ ((∃ c1, e.calls = [c1] ∧ c1.c.Net = e.netBefore
          ∧ (∀ r1, c1.result.r = some r1 → r1.Truncated = false)
          ∧ e.r = c1.result.r ∧ e.netAfter = e.netBefore)
      ∨ (∃ c1 c2 r1, e.calls = [c1, c2] ∧ c1.c.Net = e.netBefore
          ∧ c1.result.r = some r1 ∧ r1.Truncated = true
          ∧ c2.c.Net = "tcp" ∧ c2.msg = c1.msg ∧ c2.nameserver = c1.nameserver
          ∧ e.r = c2.result.r ∧ e.netAfter = "udp"))

/-- Whether an output contains the non-existent-domain message. -/
def saysNonExistent (out : List Out) : Bool :=
  out.any fun o =>
    match o with
    | .Printf format _ => decide (format = nonExistentFormat)
    | _ => false

/-! ## Example environments -/

/-- A library environment for the examples: ASCII case mapping, a trailing
dot added by `Fqdn` to a name without one, host and port joined by a colon,
a server that resolves to one name, and the given transport. -/
def exampleEnv (exchange : Nat → Client → Msg → String → ExchResult) : Env :=
  { upper := Char.toUpper, lower := Char.toLower,
    Fqdn := fun s => if s.data.getLast? = some '.' then s else s ++ ".",
    JoinHostPort := fun host port => host ++ ":" ++ port,
    LookupAddr := fun _ _ => some ["dns.google."],
    Exchange := exchange, Id := fun t => t, AlgorithmToString := fun _ => "" }

/-- A transport that answers an address question with one address record
and every other question with an empty answer section and an SOA record in
the authority section. -/
def answering : Nat → Client → Msg → String → ExchResult :=
  fun _ _ msg _ =>
    match msg.Question with
    | [q] =>
      if q.Qtype = TypeA then ⟨some { msg with Answer := [.A "93.184.216.34"] }, none⟩
      else ⟨some { msg with Ns := [.SOA "ns.example.com." "admin.example.com." 1 7200 3600
                                      1209600 3600] }, none⟩
    | _ => ⟨some msg, none⟩

/-- A transport whose responses are truncated unless the client is in mode
`tcp`. -/
def truncating : Nat → Client → Msg → String → ExchResult :=
  fun _ c msg _ =>
    if c.Net = "tcp" then ⟨some { msg with Answer := [.A "93.184.216.34"] }, none⟩
    else ⟨some { msg with Truncated := true }, none⟩

/-- A transport that answers an `A` question with one address record and
fails, with no response, on every other question. -/
def failingButA : Nat → Client → Msg → String → ExchResult :=
  fun _ _ msg _ =>
    match msg.Question with
    | [q] =>
      if q.Qtype = TypeA then ⟨some { msg with Answer := [.A "93.184.216.34"] }, none⟩
      else ⟨none, some "i/o timeout"⟩
    | _ => ⟨none, some "i/o timeout"⟩

/-- The example environment with a server whose reverse lookup fails. -/
def unresolvedEnv : Env :=
  { exampleEnv answering with LookupAddr := fun _ _ => none }

/-- The record of the one sub-query of the lookup of `example.com`, type `A`,
over the truncating transport. -/
def truncatedEntry : SubQuery :=
  let msg : Msg :=
    { Id := 1, RecursionDesired := true, Truncated := false,
      Question := [⟨"example.com.", TypeA, ClassINET⟩], Answer := [], Ns := [] }
  { token := "A", dnslookupType := TypeA, netBefore := "",
    calls := [ ⟨⟨""⟩, msg, "8.8.8.8:53", ⟨some { msg with Truncated := true }, none⟩⟩,
               ⟨⟨"tcp"⟩, msg, "8.8.8.8:53",
                 ⟨some { msg with Answer := [.A "93.184.216.34"] }, none⟩⟩ ],
    netAfter := "udp",
    r := some { msg with Answer := [.A "93.184.216.34"] } }

/-! ## Properties -/

namespace strings

theorem splitChars_ne_nil (sep : Char) (l : List Char) : splitChars sep l ≠ [] := by
  cases l with
  | nil => simp [splitChars]
  | cons c cs =>
    unfold splitChars
    split
    · simp
    · split <;> simp

theorem splitChars_of_not_mem (sep : Char) (a : List Char) (h : sep ∉ a) :
    splitChars sep a = [a] := by
  induction a with
  | nil => rfl
  | cons c cs ih =>
    have hc : c ≠ sep := fun e => h (by simp [e])
    have hcs : sep ∉ cs := fun e => h (by simp [e])
    simp [splitChars, hc, ih hcs]

theorem splitChars_append_sep (sep : Char) (a rest : List Char) (h : sep ∉ a) :
    splitChars sep (a ++ sep :: rest) = a :: splitChars sep rest := by
  induction a with
  | nil => simp [splitChars]
  | cons c cs ih =>
    have hc : c ≠ sep := fun e => h (by simp [e])
    have hcs : sep ∉ cs := fun e => h (by simp [e])
    simp [splitChars, hc, ih hcs]

theorem length_splitChars (sep : Char) (l : List Char) :
    (splitChars sep l).length = l.count sep + 1 := by
  induction l with
  | nil => rfl
  | cons c cs ih =>
    unfold splitChars
    by_cases hc : c = sep
    · subst hc
      simp [ih]
    · have hne : (c == sep) = false := by simpa using hc
      rw [if_neg hc, List.count_cons, hne]
      cases hs : splitChars sep cs with
      | nil => exact absurd hs (splitChars_ne_nil sep cs)
      | cons p ps =>
        rw [hs] at ih
        simpa using ih

theorem length_Split (s : String) (sep : Char) :
    (Split s sep).length = s.data.count sep + 1 := by
  simp [Split, length_splitChars]

end strings


theorem ipToArpa_parts (t t1 : String) (h : ipToArpa t = some t1) :
    4 ≤ (strings.Split t1 '.').length := by
  unfold ipToArpa at h
  simp only at h
  split at h
  · rename_i p3 p2 p1 p0 _ _ _ _
    injection h with h
    subst h
    rw [strings.length_Split]
    simp [String.data_append, List.count_append]
    omega
  · exact absurd h (by simp)

theorem lookup_cons_string (k a : String) (b : Nat) (l : List (String × Nat)) :
    List.lookup k ((a, b) :: l) = if k = a then some b else List.lookup k l := by
  by_cases h : k = a
  · subst h; simp [List.lookup]
  · have : (k == a) = false := by simpa using h
    simp [List.lookup, this, h]

theorem lookup_m_eq_spec (s : String) :
    (match m.lookup s with
      | some t => t
      | none => TypeA) = recordTypeSpec s := by
  by_cases h1 : s = "A"
  · subst h1; decide
  by_cases h2 : s = "AAAA"
  · subst h2; decide
  by_cases h3 : s = "ANY"
  · subst h3; decide
  by_cases h4 : s = "CNAME"
  · subst h4; decide
  by_cases h5 : s = "DNSKEY"
  · subst h5; decide
  by_cases h6 : s = "MX"
  · subst h6; decide
  by_cases h7 : s = "NS"
  · subst h7; decide
  by_cases h8 : s = "PTR"
  · subst h8; decide
  by_cases h9 : s = "SOA"
  · subst h9; decide
  by_cases h10 : s = "SRV"
  · subst h10; decide
  by_cases h11 : s = "TXT"
  · subst h11; decide
  simp [m, recordTypeSpec, lookup_cons_string, h1, h2, h3, h4, h5, h6, h7, h8, h9, h10, h11]

theorem dnslookupTypeOf_eq_spec (env : Env) (tok : String) :
    dnslookupTypeOf env tok = recordTypeSpec (env.ToUpper tok) :=
  lookup_m_eq_spec (env.ToUpper tok)

theorem recordTypeSpec_cases (s : String) :
    recordTypeSpec s ∈
      [TypeA, TypeAAAA, TypeANY, TypeCNAME, TypeDNSKEY, TypeMX, TypeNS, TypePTR, TypeSOA,
        TypeSRV, TypeTXT] := by
  unfold recordTypeSpec
  repeat' split
  all_goals decide

theorem dnslookupTypeOf_cases (env : Env) (tok : String) :
    dnslookupTypeOf env tok ∈
      [TypeA, TypeAAAA, TypeANY, TypeCNAME, TypeDNSKEY, TypeMX, TypeNS, TypePTR, TypeSOA,
        TypeSRV, TypeTXT] := by
  rw [dnslookupTypeOf_eq_spec]
  exact recordTypeSpec_cases _

theorem ipToArpa_isSome (t : String) (h : 4 ≤ (strings.Split t '.').length) :
    ∃ t1, ipToArpa t = some t1 := by
  match hp : strings.Split t '.', h with
  | p0 :: p1 :: p2 :: p3 :: _, _ => simp [ipToArpa, hp]

theorem buildQuestion_some (env : Env) (rd : Bool) (st : LoopState) (tok : String)
    (hptr : dnslookupTypeOf env tok = TypePTR → 4 ≤ (strings.Split st.target '.').length) :
    ∃ tgt msg, buildQuestion env rd st (dnslookupTypeOf env tok) = some (tgt, msg, st.clock + 1)
      ∧ msg.Question = [⟨env.Fqdn tgt, dnslookupTypeOf env tok, ClassINET⟩]
      ∧ (dnslookupTypeOf env tok = TypePTR → ipToArpa st.target = some tgt)
      ∧ (dnslookupTypeOf env tok ≠ TypePTR → tgt = st.target) := by
  have hT := dnslookupTypeOf_cases env tok
  generalize dnslookupTypeOf env tok = T at hT hptr
  unfold buildQuestion
  by_cases h1 : T = TypePTR
  · obtain ⟨t1, ht1⟩ := ipToArpa_isSome _ (hptr h1)
    rw [if_pos h1, ht1]
    exact ⟨t1, _, rfl, rfl, fun _ => rfl, fun h => absurd h1 h⟩
  · rw [if_neg h1]
    by_cases h2 : T ∈ [TypeANY, TypeMX, TypeNS, TypeSOA, TypeTXT, TypeDNSKEY, TypeSRV]
    · rw [if_pos h2]
      exact ⟨_, _, rfl, rfl, fun h => absurd h h1, fun _ => rfl⟩
    · rw [if_neg h2]
      by_cases h3 : T = TypeCNAME
      · rw [if_pos h3]
        exact ⟨_, _, rfl, rfl, fun h => absurd h h1, fun _ => rfl⟩
      · rw [if_neg h3]
        have h4 : T = TypeA ∨ T = TypeAAAA := by
          simp only [List.mem_cons, List.mem_singleton, List.not_mem_nil, or_false] at hT h2
          tauto
        rw [if_pos h4]
        exact ⟨_, _, rfl, rfl, fun h => absurd h h1, fun _ => rfl⟩

theorem subQuery_ok (env : Env) (rd : Bool) (ns : String) (st : LoopState) (tok : String)
    (hResp : Responsive env)
    (hptr : dnslookupTypeOf env tok = TypePTR → 4 ≤ (strings.Split st.target '.').length) :
    ∃ (st1 : LoopState) (e : SubQuery) (r : Msg), subQuery env rd ns st tok = .ok st1
      ∧ st1.log = st.log ++ [e]
      ∧ e.token = tok ∧ e.dnslookupType = dnslookupTypeOf env tok ∧ e.r = some r
      ∧ st1.mainR.Answer = st.mainR.Answer ++ r.Answer
      ∧ st1.mainR.Ns = st.mainR.Ns ++ r.Ns
      ∧ st1.msg.Question = [⟨env.Fqdn st1.target, dnslookupTypeOf env tok, ClassINET⟩]
      ∧ e.calls ≠ []
      ∧ (∀ call ∈ e.calls, call.msg = st1.msg)
      ∧ (dnslookupTypeOf env tok = TypePTR → ipToArpa st.target = some st1.target)
      ∧ (dnslookupTypeOf env tok ≠ TypePTR → st1.target = st.target) := by
  obtain ⟨tgt, msg, hb, hq, hp1, hp2⟩ := buildQuestion_some env rd st tok hptr
  unfold subQuery
  simp only [hb]
  cases h1 : (env.Exchange (st.clock + 1) st.c msg ns).r with
  | none => exact absurd h1 (hResp _ _ _ _)
  | some r1 =>
    by_cases ht : r1.Truncated = true
    · cases h2 : (env.Exchange (st.clock + 1 + 1) { st.c with Net := "tcp" } msg ns).r with
      | none => exact absurd h2 (hResp _ _ _ _)
      | some r2 =>
        simp only [ht, if_true, h2]
        refine ⟨_, _, r2, rfl, rfl, rfl, rfl, rfl, rfl, rfl, hq, by simp, ?_, hp1, hp2⟩
        intro call hc
        simp only [List.mem_cons, List.mem_singleton, List.not_mem_nil, or_false] at hc
        rcases hc with h | h <;> rw [h]
    · simp only [ht, Bool.false_eq_true, if_false]
      refine ⟨_, _, r1, rfl, rfl, rfl, rfl, rfl, rfl, rfl, hq, by simp, ?_, hp1, hp2⟩
      intro call hc
      simp only [List.mem_singleton] at hc
      rw [hc]

theorem queryLoop_ok (env : Env) (rd : Bool) (ns : String) (hResp : Responsive env) :
    ∀ (toks : List String) (st : LoopState), PtrSafe env toks st.target →
      ∃ (st1 : LoopState) (rs : List Msg), queryLoop env rd ns st toks = .ok st1
        ∧ st1.log.map (fun e => e.r) = st.log.map (fun e => e.r) ++ rs.map some
        ∧ st1.log.map (fun e => e.token) = st.log.map (fun e => e.token) ++ toks
        ∧ st1.log.map (fun e => e.dnslookupType)
            = st.log.map (fun e => e.dnslookupType) ++ toks.map (dnslookupTypeOf env)
        ∧ st1.mainR.Answer = st.mainR.Answer ++ (rs.map (fun r => r.Answer)).flatten
        ∧ st1.mainR.Ns = st.mainR.Ns ++ (rs.map (fun r => r.Ns)).flatten
        ∧ (∀ last, toks.getLast? = some last →
            st1.msg.Question = [⟨env.Fqdn st1.target, dnslookupTypeOf env last, ClassINET⟩])
        ∧ (∀ e ∈ st1.log, e ∈ st.log ∨
            (e.dnslookupType = dnslookupTypeOf env e.token ∧ e.calls ≠ [] ∧
              ∀ call ∈ e.calls, call.msg.Question.map (fun q => q.Qtype) = [e.dnslookupType])) := by
  intro toks
  induction toks with
  | nil =>
    intro st _
    exact ⟨st, [], rfl, by simp, by simp, by simp, by simp, by simp, by simp,
      fun e he => Or.inl he⟩
  | cons tok rest ih =>
    intro st hsafe
    have hptr : dnslookupTypeOf env tok = TypePTR → 4 ≤ (strings.Split st.target '.').length := by
      intro hT
      rcases hsafe with h | h
      · exact absurd hT (h tok (by simp))
      · exact h
    obtain ⟨st1, e, r, hstep, hlog, htok, hty, hr, hans, hns, hq, hne, hcalls, hp1, hp2⟩ :=
      subQuery_ok env rd ns st tok hResp hptr
    have hsafe1 : PtrSafe env rest st1.target := by
      rcases hsafe with h | h
      · exact Or.inl (fun t ht => h t (by simp [ht]))
      · by_cases hT : dnslookupTypeOf env tok = TypePTR
        · exact Or.inr (ipToArpa_parts _ _ (hp1 hT))
        · rw [hp2 hT]; exact Or.inr h
    obtain ⟨st2, rs, hloop, hrs, htoks, htys, hans2, hns2, hlast, hcalls2⟩ := ih st1 hsafe1
    refine ⟨st2, r :: rs, ?_, ?_, ?_, ?_, ?_, ?_, ?_, ?_⟩
    · simp only [queryLoop, hstep, hloop]
    · rw [hrs, hlog]; simp [hr]
    · rw [htoks, hlog]; simp [htok]
    · rw [htys, hlog]; simp [hty]
    · rw [hans2, hans]; simp
    · rw [hns2, hns]; simp
    · intro last hl
      cases rest with
      | nil =>
        simp only [List.getLast?_singleton, Option.some.injEq] at hl
        subst hl
        simp only [queryLoop, Step.ok.injEq] at hloop
        subst hloop
        exact hq
      | cons t2 rest2 =>
        rw [List.getLast?_cons_cons] at hl
        exact hlast last hl
    · intro e2 he2
      rcases hcalls2 e2 he2 with h | h
      · rw [hlog] at h
        simp only [List.mem_append, List.mem_singleton] at h
        rcases h with h | h
        · exact Or.inl h
        · subst h
          refine Or.inr ⟨by rw [hty, htok], hne, fun call hc => ?_⟩
          rw [hcalls call hc, hq, hty]
          rfl
      · exact Or.inr h

theorem saysNonExistent_nil : saysNonExistent [] = false := rfl

theorem saysNonExistent_cons (o : Out) (l : List Out) :
    saysNonExistent (o :: l)
      = ((match o with
          | .Printf format _ => decide (format = nonExistentFormat)
          | _ => false) || saysNonExistent l) := rfl

theorem saysNonExistent_append (a b : List Out) :
    saysNonExistent (a ++ b) = (saysNonExistent a || saysNonExistent b) := by
  unfold saysNonExistent
  exact List.any_append

theorem saysNonExistent_printSOA (ns mbox : String) (a b c d e : Nat) :
    saysNonExistent (printSOA ns mbox a b c d e) = false := by
  simp [saysNonExistent_cons, saysNonExistent_nil, printSOA, nonExistentFormat]

theorem saysNonExistent_printHeader (target : String) (r : Msg) :
    saysNonExistent (printHeader target r) = false := by
  unfold printHeader
  split <;> simp [saysNonExistent_cons, saysNonExistent_nil]

theorem saysNonExistent_printRecord (env : Env) (target : String) (rr : RR) :
    saysNonExistent (printRecord env target rr).1 = false := by
  cases rr with
  | TXT txt =>
    cases h : txt[0]? <;>
      simp [printRecord, h, saysNonExistent_cons, saysNonExistent_nil, nonExistentFormat]
  | SOA ns mbox a b c d e => exact saysNonExistent_printSOA ns mbox a b c d e
  | _ => simp [printRecord, saysNonExistent_cons, saysNonExistent_nil, nonExistentFormat]

theorem saysNonExistent_printNs (l : List RR) : saysNonExistent (printNs l) = false := by
  induction l with
  | nil => rfl
  | cons rr rest ih =>
    cases rr <;> simp [printNs, ih, saysNonExistent_append, saysNonExistent_printSOA]

theorem saysNonExistent_printAnswers (env : Env) (target : String) (r : Msg) (l : List RR) :
    ∀ v, saysNonExistent (printAnswers env target r v l).out = false := by
  induction l with
  | nil => intro v; rfl
  | cons ans rest ih =>
    intro v
    have hrec := saysNonExistent_printRecord env target ans
    have hhdr : ∀ c : Bool, saysNonExistent (if c = true then printHeader target r else []) = false := by
      intro c
      cases c
      · rfl
      · exact saysNonExistent_printHeader target r
    unfold printAnswers
    simp only
    cases hp : printRecord env target ans with
    | mk o b =>
      rw [hp] at hrec
      cases b
      · simp only [saysNonExistent_append, hhdr, hrec, ih, Bool.or_self]
      · simp only [saysNonExistent_append, hhdr, hrec, Bool.or_self]

theorem printAnswer_says (env : Env) (msg r : Msg) (target name : String) (T : Nat)
    (hq : msg.Question = [⟨name, T, ClassINET⟩]) :
    saysNonExistent (printAnswer env msg (some r) target none false).out = true
      ↔ (r.Answer = [] ∧ (T = TypeA ∨ T = TypeAAAA)) := by
  have hrest : saysNonExistent
      (if (printAnswers env target r false r.Answer).panicked = true then
          printAnswers env target r false r.Answer
        else if r.Ns ≠ [] then
          { printAnswers env target r false r.Answer with
            out := (printAnswers env target r false r.Answer).out ++ [.Println [target]]
              ++ printNs r.Ns }
        else printAnswers env target r false r.Answer).out = false := by
    split
    · exact saysNonExistent_printAnswers env target r r.Answer false
    · split
      · simp [saysNonExistent_append, saysNonExistent_printAnswers, saysNonExistent_printNs,
          saysNonExistent_cons, saysNonExistent_nil]
      · exact saysNonExistent_printAnswers env target r r.Answer false
  unfold printAnswer
  simp only [hq, List.getElem?_cons_zero]
  by_cases ha : r.Answer = []
  · by_cases hT : T = TypeA ∨ T = TypeAAAA
    · simp [ha, hT, saysNonExistent_cons, saysNonExistent_nil]
    · rw [if_pos ha, if_neg hT, hrest]
      simp [hT]
  · rw [if_neg ha, hrest]
    simp [ha]

theorem internalnslookup_ok (env : Env) (clock : Nat) (rd : Bool) (ty target server : String)
    (hsrv : ServerResolves env clock server) (hresp : Responsive env)
    (hptr : PtrSafe env (strings.Split ty '+') target) :
    ∃ (h : Handed) (rs : List Msg) (name0 : String),
      (internalnslookup env clock rd ty target server).handed = some h
      ∧ h.err = none
      ∧ (internalnslookup env clock rd ty target server).out
          = [.Println ["Server:  ", name0], .Println ["Address: ", (hostAndPort server).1],
              .Println []] ++ (printAnswer env h.msg (some h.r) h.target none false).out
      ∧ (internalnslookup env clock rd ty target server).log.map (fun e => e.r) = rs.map some
      ∧ (internalnslookup env clock rd ty target server).log.map (fun e => e.token)
          = strings.Split ty '+'
      ∧ (internalnslookup env clock rd ty target server).log.map (fun e => e.dnslookupType)
          = (strings.Split ty '+').map (dnslookupTypeOf env)
      ∧ h.r.Answer = (rs.map (fun r => r.Answer)).flatten
      ∧ h.r.Ns = (rs.map (fun r => r.Ns)).flatten
      ∧ (∀ last, (strings.Split ty '+').getLast? = some last →
          h.msg.Question = [⟨env.Fqdn h.target, dnslookupTypeOf env last, ClassINET⟩])
      ∧ (∀ e ∈ (internalnslookup env clock rd ty target server).log,
          e.dnslookupType = dnslookupTypeOf env e.token ∧ e.calls ≠ [] ∧
            ∀ call ∈ e.calls, call.msg.Question.map (fun q => q.Qtype) = [e.dnslookupType]) := by
  obtain ⟨name0, names, hla⟩ := hsrv
  obtain ⟨st1, rs, hloop, hrs, htoks, htys, hans, hns, hlast, hcalls⟩ :=
    queryLoop_ok env rd
      (env.JoinHostPort (hostAndPort server).1
        (if dnsClient.Net = "tcp" then "443" else (hostAndPort server).2)) hresp
      (strings.Split ty '+') ⟨clock + 1, target, defaultMsg, dnsClient, {}, []⟩ hptr
  have hrun : internalnslookup env clock rd ty target server
      = { clock := st1.clock,
          out := [.Println ["Server:  ", name0], .Println ["Address: ", (hostAndPort server).1],
              .Println []] ++ (printAnswer env st1.msg (some st1.mainR) st1.target none false).out,
          log := st1.log,
          panicked := (printAnswer env st1.msg (some st1.mainR) st1.target none false).panicked,
          handed := some ⟨st1.msg, st1.mainR, st1.target, none⟩ } := by
    unfold internalnslookup
    simp only [hla, List.getElem?_cons_zero, hloop]
  rw [hrun]
  refine ⟨⟨st1.msg, st1.mainR, st1.target, none⟩, rs, name0, rfl, rfl, rfl, ?_, ?_, ?_, ?_, ?_,
    hlast, ?_⟩
  · simpa using hrs
  · simpa using htoks
  · simpa using htys
  · simpa using hans
  · simpa using hns
  · intro e he
    rcases hcalls e he with h | h
    · simp at h
    · exact h

theorem Split_ne_nil (s : String) (sep : Char) : strings.Split s sep ≠ [] := by
  unfold strings.Split
  intro h
  exact strings.splitChars_ne_nil sep s.data (List.map_eq_nil_iff.mp h)

theorem getLast?_map_of_eq {α β : Type} (f : α → β) (l : List α) (l2 : List β)
    (h : l.map f = l2) : l.getLast?.map f = l2.getLast? := by
  subst h
  induction l with
  | nil => rfl
  | cons a t ih =>
    cases t with
    | nil => rfl
    | cons b t2 =>
      rw [List.getLast?_cons_cons, List.map_cons, List.map_cons, List.getLast?_cons_cons,
        ← List.map_cons]
      exact ih

theorem responsive_answering : Responsive (exampleEnv answering) := by
  intro t c msg ns
  simp only [exampleEnv, answering]
  split
  · split <;> simp
  · simp

theorem serverResolves_example (exchange : Nat → Client → Msg → String → ExchResult)
    (clock : Nat) (server : String) : ServerResolves (exampleEnv exchange) clock server :=
  ⟨"dns.google.", [], rfl⟩

theorem queryLoop_log_inv (env : Env) (rd : Bool) (ns : String) (I : LoopState → Prop)
    (P : SubQuery → Prop)
    (hstep : ∀ st tok, I st → I (subQuery env rd ns st tok).state ∧
      ∀ e ∈ (subQuery env rd ns st tok).state.log, e ∈ st.log ∨ P e) :
    ∀ (toks : List String) (st : LoopState), I st → (∀ e ∈ st.log, P e) →
      ∀ e ∈ (queryLoop env rd ns st toks).state.log, P e := by
  intro toks
  induction toks with
  | nil => intro st _ h e he; exact h e he
  | cons tok rest ih =>
    intro st hI h e he
    have hs := hstep st tok hI
    unfold queryLoop at he
    cases hq : subQuery env rd ns st tok with
    | ok st1 =>
      rw [hq] at he hs
      refine ih st1 hs.1 ?_ e he
      intro e1 he1
      rcases hs.2 e1 he1 with h1 | h1
      · exact h e1 h1
      · exact h1
    | panic st1 =>
      rw [hq] at he hs
      rcases hs.2 e he with h1 | h1
      · exact h e h1
      · exact h1

theorem internalnslookup_log_inv (env : Env) (clock : Nat) (rd : Bool)
    (ty target server : String) (I : LoopState → Prop) (P : SubQuery → Prop)
    (hinit : I ⟨clock + 1, target, defaultMsg, dnsClient, {}, []⟩)
    (hstep : ∀ st tok, I st → I (subQuery env rd (nameserverOf env server) st tok).state ∧
      ∀ e ∈ (subQuery env rd (nameserverOf env server) st tok).state.log, e ∈ st.log ∨ P e) :
    ∀ e ∈ (internalnslookup env clock rd ty target server).log, P e := by
  intro e he
  unfold internalnslookup at he
  simp only at he
  split at he
  · simp at he
  · split at he
    · simp at he
    · have hinv := queryLoop_log_inv env rd (nameserverOf env server) I P hstep
        (strings.Split ty '+') ⟨clock + 1, target, defaultMsg, dnsClient, {}, []⟩ hinit
        (by intro e he; simp at he) e
      unfold nameserverOf at hinv
      split at he
      · rename_i st hq
        rw [hq] at hinv
        exact hinv he
      · rename_i st hq
        rw [hq] at hinv
        exact hinv he

theorem subQuery_issued (env : Env) (rd : Bool) (ns : String) (st : LoopState) (tok : String)
    (hc : st.c.Net = "" ∨ st.c.Net = "udp") :
    ((subQuery env rd ns st tok).state.c.Net = ""
        ∨ (subQuery env rd ns st tok).state.c.Net = "udp")
      ∧ ∀ e ∈ (subQuery env rd ns st tok).state.log, e ∈ st.log ∨ IssuedBy env ns e := by
  unfold subQuery
  simp only
  split
  · exact ⟨hc, fun e he => Or.inl he⟩
  · rename_i tgt msg clk hb
    split
    · rename_i h1
      refine ⟨hc, ?_⟩
      intro e he
      simp only [Step.state, List.mem_append, List.mem_singleton] at he
      rcases he with he | he
      · exact Or.inl he
      · subst he
        refine Or.inr ⟨hc, ?_, Or.inl ⟨_, rfl, rfl, ?_, h1.symm, rfl⟩⟩
        · intro call hcall
          simp only [List.mem_singleton] at hcall
          subst hcall
          exact ⟨rfl, clk, rfl⟩
        · intro r1 hr1
          simp [h1] at hr1
    · rename_i r1 h1
      by_cases ht : r1.Truncated = true
      · simp only [ht, if_true]
        split <;>
        · refine ⟨Or.inr rfl, ?_⟩
          intro e he
          simp only [Step.state, List.mem_append, List.mem_singleton] at he
          rcases he with he | he
          · exact Or.inl he
          · subst he
            refine Or.inr ⟨hc, ?_,
              Or.inr ⟨_, _, r1, rfl, rfl, h1, ht, rfl, rfl, rfl, rfl, rfl⟩⟩
            intro call hcall
            simp only [List.mem_cons, List.mem_singleton, List.not_mem_nil, or_false] at hcall
            rcases hcall with hcall | hcall
            · subst hcall
              exact ⟨rfl, clk, rfl⟩
            · subst hcall
              exact ⟨rfl, clk + 1, rfl⟩
      · simp only [ht, Bool.false_eq_true, if_false]
        refine ⟨hc, ?_⟩
        intro e he
        simp only [Step.state, List.mem_append, List.mem_singleton] at he
        rcases he with he | he
        · exact Or.inl he
        · subst he
          refine Or.inr ⟨hc, ?_, Or.inl ⟨_, rfl, rfl, ?_, h1.symm, rfl⟩⟩
          · intro call hcall
            simp only [List.mem_singleton] at hcall
            subst hcall
            exact ⟨rfl, clk, rfl⟩
          · intro r2 hr2
            rw [h1] at hr2
            injection hr2 with hr2
            subst hr2
            simpa using ht

theorem internalnslookup_issued (env : Env) (clock : Nat) (rd : Bool)
    (ty target server : String) :
    ∀ e ∈ (internalnslookup env clock rd ty target server).log,
      IssuedBy env (nameserverOf env server) e :=
  internalnslookup_log_inv env clock rd ty target server
    (fun st => st.c.Net = "" ∨ st.c.Net = "udp") (IssuedBy env (nameserverOf env server))
    (Or.inl rfl) (fun st tok hI => subQuery_issued env rd (nameserverOf env server) st tok hI)

theorem issuedBy_last (env : Env) (ns : String) (e : SubQuery) (h : IssuedBy env ns e) :
    e.calls ≠ [] ∧ e.calls.getLast?.map (fun c => c.result.r) = some e.r := by
  obtain ⟨_, _, hshape⟩ := h
  rcases hshape with ⟨c1, hcalls, _, _, hr, _⟩ | ⟨c1, c2, r1, hcalls, _, _, _, _, _, _, hr, _⟩
  · rw [hcalls, hr]; simp
  · rw [hcalls, hr]; simp

/-- C1: when the server resolves, every exchange returns a response and the
target has four components if a token asks for a pointer record, the lookup
reaches `printAnswer` with one sub-query per token, in token order.  Each
sub-query exchanged with the transport, at the lookup's server address, a
message asking for the record type of its token, and its sub-response is
what the transport returned to its last exchange.  The response handed over
has as answer section the concatenation of the sub-responses' answer sections
in token order and as authority section the concatenation of their authority
sections; so every authority record of every sub-response is in it, whatever
that sub-response's answer section. -/
theorem aggregate_concatenates (env : Env) (clock : Nat) (rd : Bool)
    (ty target server : String) (hsrv : ServerResolves env clock server)
    (hresp : Responsive env) (hptr : PtrSafe env (strings.Split ty '+') target) :
    ∃ (h : Handed) (rs : List Msg),
      (internalnslookup env clock rd ty target server).handed = some h
      ∧ (internalnslookup env clock rd ty target server).log.map (fun e => e.r) = rs.map some
      ∧ (internalnslookup env clock rd ty target server).log.map (fun e => e.token)
          = strings.Split ty '+'
      ∧ (∀ e ∈ (internalnslookup env clock rd ty target server).log,
          e.calls ≠ []
            ∧ e.calls.getLast?.map (fun c => c.result.r) = some e.r
            ∧ ∀ call ∈ e.calls,
                call.nameserver = nameserverOf env server
                  ∧ (∃ t, call.result = env.Exchange t call.c call.msg call.nameserver)
                  ∧ call.msg.Question.map (fun q => q.Qtype) = [dnslookupTypeOf env e.token])
      ∧ h.r.Answer = (rs.map (fun r => r.Answer)).flatten
      ∧ h.r.Ns = (rs.map (fun r => r.Ns)).flatten
      ∧ (∀ r ∈ rs, ∀ x ∈ r.Ns, x ∈ h.r.Ns) := by
  obtain ⟨h, rs, _, hh, _, _, hrs, htok, _, hans, hns, _, hent⟩ :=
    internalnslookup_ok env clock rd ty target server hsrv hresp hptr
  refine ⟨h, rs, hh, hrs, htok, ?_, hans, hns, ?_⟩
  · intro e he
    have hiss := internalnslookup_issued env clock rd ty target server e he
    obtain ⟨hne, hlast⟩ := issuedBy_last env _ e hiss
    obtain ⟨hty, _, hq⟩ := hent e he
    refine ⟨hne, hlast, fun call hcall => ⟨(hiss.2.1 call hcall).1, (hiss.2.1 call hcall).2, ?_⟩⟩
    rw [hq call hcall, hty]
  · intro r hr x hx
    rw [hns]
    exact List.mem_flatten.mpr ⟨r.Ns, List.mem_map.mpr ⟨r, hr, rfl⟩, hx⟩

/-- The lookup of `example.com`, type `A+AAAA`, over the answering transport:
the address record of the `A` sub-response and the SOA record of the `AAAA`
sub-response, whose answer section is empty, are what is handed over. -/
theorem aggregate_concatenates_witness :
    (∃ (h : Handed) (rs : List Msg),
      (internalnslookup (exampleEnv answering) 0 false "A+AAAA" "example.com" "8.8.8.8").handed
        = some h
      ∧ (internalnslookup (exampleEnv answering) 0 false "A+AAAA" "example.com"
          "8.8.8.8").log.map (fun e => e.r) = rs.map some
      ∧ (internalnslookup (exampleEnv answering) 0 false "A+AAAA" "example.com"
          "8.8.8.8").log.map (fun e => e.token) = strings.Split "A+AAAA" '+'
      ∧ (∀ e ∈ (internalnslookup (exampleEnv answering) 0 false "A+AAAA" "example.com"
            "8.8.8.8").log,
          e.calls ≠ []
            ∧ e.calls.getLast?.map (fun c => c.result.r) = some e.r
            ∧ ∀ call ∈ e.calls,
                call.nameserver = nameserverOf (exampleEnv answering) "8.8.8.8"
                  ∧ (∃ t, call.result
                      = (exampleEnv answering).Exchange t call.c call.msg call.nameserver)
                  ∧ call.msg.Question.map (fun q => q.Qtype)
                      = [dnslookupTypeOf (exampleEnv answering) e.token])
      ∧ h.r.Answer = (rs.map (fun r => r.Answer)).flatten
      ∧ h.r.Ns = (rs.map (fun r => r.Ns)).flatten
      ∧ (∀ r ∈ rs, ∀ x ∈ r.Ns, x ∈ h.r.Ns))
    ∧ (internalnslookup (exampleEnv answering) 0 false "A+AAAA" "example.com"
        "8.8.8.8").handed.map (fun h => (h.r.Answer, h.r.Ns))
        = some ([.A "93.184.216.34"],
            [.SOA "ns.example.com." "admin.example.com." 1 7200 3600 1209600 3600])
    ∧ (internalnslookup (exampleEnv answering) 0 false "A+AAAA" "example.com"
        "8.8.8.8").log.map (fun e => (e.token, e.r.map (fun r => (r.Answer, r.Ns))))
        = [("A", some ([.A "93.184.216.34"], [])),
            ("AAAA", some ([],
              [.SOA "ns.example.com." "admin.example.com." 1 7200 3600 1209600 3600]))] :=
  ⟨aggregate_concatenates (exampleEnv answering) 0 false "A+AAAA" "example.com" "8.8.8.8"
    (serverResolves_example _ _ _) responsive_answering (Or.inl (by decide)),
   by decide, by decide⟩

/-- C3: every sub-query that `internalnslookup` issues exchanges with the
transport once or twice, at the lookup's server address.  Once, over the
best-effort transport, when the first exchange returns no response or one
that is not truncated.  Twice, when the first response is truncated: the
second exchange has the same message and the same server address and goes
over the reliable transport (the client is in mode `tcp` for it), and there
is no third.  In both cases, whatever the second exchange returned, the
transport of the client's mode after the sub-query is the transport of its
mode before the first exchange (the mode is then unchanged or `udp`). -/
theorem truncation_reexchange (env : Env) (clock : Nat) (rd : Bool)
    (ty target server : String) :
    ∀ e ∈ (internalnslookup env clock rd ty target server).log,
      transportOf e.netAfter = transportOf e.netBefore
        ∧ (∀ call ∈ e.calls, call.nameserver = nameserverOf env server
            ∧ ∃ t, call.result = env.Exchange t call.c call.msg call.nameserver)
        ∧ ((∃ c1, e.calls = [c1] ∧ c1.c.Net = e.netBefore
              ∧ transportOf c1.c.Net = .bestEffort
              ∧ (∀ r1, c1.result.r = some r1 → r1.Truncated = false)
              ∧ e.r = c1.result.r ∧ e.netAfter = e.netBefore)
          ∨ (∃ c1 c2 r1, e.calls = [c1, c2] ∧ c1.c.Net = e.netBefore
              ∧ transportOf c1.c.Net = .bestEffort
              ∧ c1.result.r = some r1 ∧ r1.Truncated = true
              ∧ c2.c.Net = "tcp" ∧ transportOf c2.c.Net = .reliable
              ∧ c2.msg = c1.msg ∧ c2.nameserver = c1.nameserver
              ∧ e.r = c2.result.r ∧ e.netAfter = "udp")) := by
  intro e he
  obtain ⟨hbefore, hcalls, hshape⟩ := internalnslookup_issued env clock rd ty target server e he
  have hbe : transportOf e.netBefore = .bestEffort := by
    rcases hbefore with h | h <;> rw [h] <;> decide
  refine ⟨?_, hcalls, ?_⟩
  · rcases hshape with ⟨_, _, _, _, _, hafter⟩ | ⟨_, _, _, _, _, _, _, _, _, _, _, hafter⟩
    · rw [hafter]
    · rw [hafter, hbe]
      decide
  · rcases hshape with ⟨c1, a1, a2, a3, a4, a5⟩ | ⟨c1, c2, r1, a1, a2, a3, a4, a5, a6, a7, a8, a9⟩
    · exact Or.inl ⟨c1, a1, a2, by rw [a2]; exact hbe, a3, a4, a5⟩
    · exact Or.inr ⟨c1, c2, r1, a1, a2, by rw [a2]; exact hbe, a3, a4, a5,
        by rw [a5]; decide, a6, a7, a8, a9⟩

/-- The lookup of `example.com`, type `A`, over the truncating transport: its
one sub-query is `truncatedEntry`, two exchanges, the second in mode `tcp`. -/
theorem truncation_reexchange_witness :
    (internalnslookup (exampleEnv truncating) 0 false "A" "example.com" "8.8.8.8").log
        = [truncatedEntry]
      ∧ transportOf truncatedEntry.netAfter = transportOf truncatedEntry.netBefore
      ∧ (∀ call ∈ truncatedEntry.calls,
          call.nameserver = nameserverOf (exampleEnv truncating) "8.8.8.8"
            ∧ ∃ t, call.result
                = (exampleEnv truncating).Exchange t call.c call.msg call.nameserver)
      ∧ ((∃ c1, truncatedEntry.calls = [c1] ∧ c1.c.Net = truncatedEntry.netBefore
            ∧ transportOf c1.c.Net = .bestEffort
            ∧ (∀ r1, c1.result.r = some r1 → r1.Truncated = false)
            ∧ truncatedEntry.r = c1.result.r
            ∧ truncatedEntry.netAfter = truncatedEntry.netBefore)
        ∨ (∃ c1 c2 r1, truncatedEntry.calls = [c1, c2] ∧ c1.c.Net = truncatedEntry.netBefore
            ∧ transportOf c1.c.Net = .bestEffort
            ∧ c1.result.r = some r1 ∧ r1.Truncated = true
            ∧ c2.c.Net = "tcp" ∧ transportOf c2.c.Net = .reliable
            ∧ c2.msg = c1.msg ∧ c2.nameserver = c1.nameserver
            ∧ truncatedEntry.r = c2.result.r ∧ truncatedEntry.netAfter = "udp")) :=
  ⟨by decide,
    truncation_reexchange (exampleEnv truncating) 0 false "A" "example.com" "8.8.8.8"
      truncatedEntry (by decide)⟩

/-- C5 (amended): when the server resolves, every exchange returns a response
and the target has four components if a token asks for a pointer record, the
lookup issues one sub-query per `+`-separated token, in token order; the
record type of each is the table entry of its upper-cased token, `A` when
that is no key of the table, and every exchange of the sub-query is an
exchange with the transport that asks one question of that type.  Type
resolution is this total function of the token, whatever the lookup does:
`mx` gives `MX` and `ZZZ` and the empty token give `A` (for a case mapping
that acts on these letters as Unicode does); `A+AAAA` has two tokens and the
empty expression one. -/
theorem one_subquery_per_token (env : Env) (clock : Nat) (rd : Bool)
    (ty target server : String) (hsrv : ServerResolves env clock server)
    (hresp : Responsive env) (hptr : PtrSafe env (strings.Split ty '+') target) :
    (internalnslookup env clock rd ty target server).log.map (fun e => e.token)
        = strings.Split ty '+'
      ∧ (∀ e ∈ (internalnslookup env clock rd ty target server).log,
          e.dnslookupType = recordTypeSpec (env.ToUpper e.token) ∧ e.calls ≠ [] ∧
            ∀ call ∈ e.calls,
              (∃ t, call.result = env.Exchange t call.c call.msg call.nameserver)
                ∧ call.msg.Question.map (fun q => q.Qtype) = [e.dnslookupType])
      ∧ (∀ tok, dnslookupTypeOf env tok = recordTypeSpec (env.ToUpper tok))
      ∧ strings.Split "A+AAAA" '+' = ["A", "AAAA"]
      ∧ strings.Split "" '+' = [""]
      ∧ (env.upper 'm' = 'M' → env.upper 'x' = 'X' → dnslookupTypeOf env "mx" = TypeMX)
      ∧ (env.upper 'Z' = 'Z' → dnslookupTypeOf env "ZZZ" = TypeA)
      ∧ dnslookupTypeOf env "" = TypeA := by
  obtain ⟨h, rs, _, _, _, _, _, htok, _, _, _, _, hent⟩ :=
    internalnslookup_ok env clock rd ty target server hsrv hresp hptr
  refine ⟨htok, ?_, dnslookupTypeOf_eq_spec env, by decide, by decide, ?_, ?_, ?_⟩
  · intro e he
    obtain ⟨h1, h2, h3⟩ := hent e he
    have hiss := internalnslookup_issued env clock rd ty target server e he
    exact ⟨by rw [h1, dnslookupTypeOf_eq_spec], h2,
      fun call hcall => ⟨(hiss.2.1 call hcall).2, h3 call hcall⟩⟩
  · intro hm hx
    have : env.ToUpper "mx" = "MX" := by
      show String.mk [env.upper 'm', env.upper 'x'] = "MX"
      rw [hm, hx]
    rw [dnslookupTypeOf_eq_spec, this]
    decide
  · intro hz
    have : env.ToUpper "ZZZ" = "ZZZ" := by
      show String.mk [env.upper 'Z', env.upper 'Z', env.upper 'Z'] = "ZZZ"
      rw [hz]
    rw [dnslookupTypeOf_eq_spec, this]
    decide
  · have : env.ToUpper "" = "" := rfl
    rw [dnslookupTypeOf_eq_spec, this]
    decide

/-- The lookup of `1.2.3.4` with type `mx+ZZZ+PTR` over the answering
transport: three sub-queries, of types `MX`, `A` and `PTR`. -/
theorem one_subquery_per_token_witness :
    ((internalnslookup (exampleEnv answering) 0 false "mx+ZZZ+PTR" "1.2.3.4" "8.8.8.8").log.map
        (fun e => e.token) = strings.Split "mx+ZZZ+PTR" '+'
      ∧ (∀ e ∈ (internalnslookup (exampleEnv answering) 0 false "mx+ZZZ+PTR" "1.2.3.4"
            "8.8.8.8").log,
          e.dnslookupType = recordTypeSpec ((exampleEnv answering).ToUpper e.token)
            ∧ e.calls ≠ [] ∧
            ∀ call ∈ e.calls,
              (∃ t, call.result
                  = (exampleEnv answering).Exchange t call.c call.msg call.nameserver)
                ∧ call.msg.Question.map (fun q => q.Qtype) = [e.dnslookupType])
      ∧ (∀ tok, dnslookupTypeOf (exampleEnv answering) tok
          = recordTypeSpec ((exampleEnv answering).ToUpper tok))
      ∧ strings.Split "A+AAAA" '+' = ["A", "AAAA"]
      ∧ strings.Split "" '+' = [""]
      ∧ ((exampleEnv answering).upper 'm' = 'M' → (exampleEnv answering).upper 'x' = 'X' →
          dnslookupTypeOf (exampleEnv answering) "mx" = TypeMX)
      ∧ ((exampleEnv answering).upper 'Z' = 'Z' →
          dnslookupTypeOf (exampleEnv answering) "ZZZ" = TypeA)
      ∧ dnslookupTypeOf (exampleEnv answering) "" = TypeA)
    ∧ (internalnslookup (exampleEnv answering) 0 false "mx+ZZZ+PTR" "1.2.3.4" "8.8.8.8").log.map
        (fun e => (e.token, e.dnslookupType, e.calls.length))
        = [("mx", TypeMX, 1), ("ZZZ", TypeA, 1), ("PTR", TypePTR, 1)] :=
  ⟨one_subquery_per_token (exampleEnv answering) 0 false "mx+ZZZ+PTR" "1.2.3.4" "8.8.8.8"
    (serverResolves_example _ _ _) responsive_answering (Or.inr (by decide)),
   by decide⟩

/-- C5, as stated for every lookup, fails: the two tokens of `A+AAAA` get no
sub-query when the reverse lookup of the server fails (the lookup returns at
line 247); the token `PTR` gets none for the target `example.com` (`ipToArpa`
panics); and of the two tokens of `AAAA+A` only the first gets one when its
exchange returns no response. -/
theorem subqueries_cut_short :
    strings.Split "A+AAAA" '+' = ["A", "AAAA"]
      ∧ (internalnslookup unresolvedEnv 0 false "A+AAAA" "example.com" "8.8.8.8").log = []
      ∧ (internalnslookup unresolvedEnv 0 false "A+AAAA" "example.com" "8.8.8.8").panicked
          = false
      ∧ (internalnslookup (exampleEnv answering) 0 false "PTR" "example.com" "8.8.8.8").log = []
      ∧ (internalnslookup (exampleEnv failingButA) 0 false "AAAA+A" "example.com"
          "8.8.8.8").log.map (fun e => e.token) = ["AAAA"]
      ∧ ¬ ((internalnslookup unresolvedEnv 0 false "A+AAAA" "example.com" "8.8.8.8").log.map
            (fun e => e.token) = strings.Split "A+AAAA" '+') := by
  decide

/-- C4: when the server resolves, every exchange returns a response and the
target has four components if a token asks for a pointer record, the lookup
reaches `printAnswer` with the question of the sub-query of the last token
in the message, and its output contains the non-existent-domain message
exactly when the aggregated answer section is empty and the record type of
that last sub-query is `A` or `AAAA`; the message is then all that is printed
after the server lines. -/
theorem nonExistent_iff (env : Env) (clock : Nat) (rd : Bool)
    (ty target server : String) (hsrv : ServerResolves env clock server)
    (hresp : Responsive env) (hptr : PtrSafe env (strings.Split ty '+') target) :
    ∃ (h : Handed) (last : String) (name0 : String),
      (internalnslookup env clock rd ty target server).handed = some h
      ∧ (strings.Split ty '+').getLast? = some last
      ∧ ((internalnslookup env clock rd ty target server).log.getLast?).map
          (fun e => e.dnslookupType) = some (dnslookupTypeOf env last)
      ∧ h.msg.Question.map (fun q => q.Qtype) = [dnslookupTypeOf env last]
      ∧ (saysNonExistent (internalnslookup env clock rd ty target server).out = true
          ↔ (h.r.Answer = []
              ∧ (dnslookupTypeOf env last = TypeA ∨ dnslookupTypeOf env last = TypeAAAA)))
      ∧ (saysNonExistent (internalnslookup env clock rd ty target server).out = true →
          (internalnslookup env clock rd ty target server).out
            = [.Println ["Server:  ", name0], .Println ["Address: ", (hostAndPort server).1],
                .Println [], .Printf nonExistentFormat [.str h.target]]) := by
  obtain ⟨h, rs, name0, hh, herr, hout, _, _, htys, _, _, hlast, _⟩ :=
    internalnslookup_ok env clock rd ty target server hsrv hresp hptr
  obtain ⟨last, hl⟩ : ∃ last, (strings.Split ty '+').getLast? = some last := by
    cases hs : (strings.Split ty '+').getLast? with
    | none => exact absurd (List.getLast?_eq_none_iff.mp hs) (Split_ne_nil ty '+')
    | some last => exact ⟨last, rfl⟩
  have hq := hlast last hl
  have hsays := printAnswer_says env h.msg h.r h.target _ _ hq
  have hout2 : saysNonExistent (internalnslookup env clock rd ty target server).out
      = saysNonExistent (printAnswer env h.msg (some h.r) h.target none false).out := by
    rw [hout, saysNonExistent_append]
    simp [saysNonExistent_cons, saysNonExistent_nil]
  refine ⟨h, last, name0, hh, hl, ?_, ?_, ?_, ?_⟩
  · rw [getLast?_map_of_eq _ _ _ htys, List.getLast?_map, hl]
    rfl
  · rw [hq]; rfl
  · rw [hout2]; exact hsays
  · intro hs
    rw [hout2] at hs
    obtain ⟨ha, hT⟩ := hsays.mp hs
    rw [hout]
    unfold printAnswer
    simp [hq, ha, hT]

theorem nonExistent_iff_witness :
    ∃ (h : Handed) (last : String) (name0 : String),
      (internalnslookup (exampleEnv answering) 0 false "AAAA" "example.com" "8.8.8.8").handed
        = some h
      ∧ (strings.Split "AAAA" '+').getLast? = some last
      ∧ ((internalnslookup (exampleEnv answering) 0 false "AAAA" "example.com"
          "8.8.8.8").log.getLast?).map (fun e => e.dnslookupType)
            = some (dnslookupTypeOf (exampleEnv answering) last)
      ∧ h.msg.Question.map (fun q => q.Qtype) = [dnslookupTypeOf (exampleEnv answering) last]
      ∧ (saysNonExistent (internalnslookup (exampleEnv answering) 0 false "AAAA"
            "example.com" "8.8.8.8").out = true
          ↔ (h.r.Answer = []
              ∧ (dnslookupTypeOf (exampleEnv answering) last = TypeA
                  ∨ dnslookupTypeOf (exampleEnv answering) last = TypeAAAA)))
      ∧ (saysNonExistent (internalnslookup (exampleEnv answering) 0 false "AAAA"
            "example.com" "8.8.8.8").out = true →
          (internalnslookup (exampleEnv answering) 0 false "AAAA" "example.com" "8.8.8.8").out
            = [.Println ["Server:  ", name0],
                .Println ["Address: ", (hostAndPort "8.8.8.8").1],
                .Println [], .Printf nonExistentFormat [.str h.target]]) :=
  nonExistent_iff (exampleEnv answering) 0 false "AAAA" "example.com" "8.8.8.8"
    (serverResolves_example _ _ _) responsive_answering (Or.inl (by decide))

/-- C6: for components `a`, `b`, `c`, `d` without a dot, `ipToArpa` of
`a.b.c.d` does not panic and returns `d.c.b.a.in-addr.arpa`. -/
theorem ipToArpa_dotted_quad (a b c d : String) (ha : '.' ∉ a.data) (hb : '.' ∉ b.data)
    (hc : '.' ∉ c.data) (hd : '.' ∉ d.data) :
    ipToArpa (a ++ "." ++ b ++ "." ++ c ++ "." ++ d)
      = some (d ++ "." ++ c ++ "." ++ b ++ "." ++ a ++ ".in-addr.arpa") := by
  have hsplit : strings.Split (a ++ "." ++ b ++ "." ++ c ++ "." ++ d) '.' = [a, b, c, d] := by
    have hdata : (a ++ "." ++ b ++ "." ++ c ++ "." ++ d).data
        = a.data ++ '.' :: (b.data ++ '.' :: (c.data ++ '.' :: d.data)) := by
      simp [String.data_append]
    unfold strings.Split
    rw [hdata, strings.splitChars_append_sep _ _ _ ha, strings.splitChars_append_sep _ _ _ hb,
      strings.splitChars_append_sep _ _ _ hc, strings.splitChars_of_not_mem _ _ hd]
    rfl
  unfold ipToArpa
  rw [hsplit]
  rfl

theorem ipToArpa_dotted_quad_witness :
    ipToArpa "1.2.3.4" = some "4.3.2.1.in-addr.arpa" :=
  ipToArpa_dotted_quad "1" "2" "3" "4" (by decide) (by decide) (by decide) (by decide)

theorem setCommand_frame (env : Env) (s : Session) (p0 p1 : String) (rest : List String) :
    (setCommand env s (p0 :: p1 :: rest)).1.origserver = s.origserver
      ∧ (setCommand env s (p0 :: p1 :: rest)).1.domainNameOrCmd = s.domainNameOrCmd
      ∧ (∀ k v, strings.Split (env.ToLower p1) '=' = [k, v] → (k = "type" ∨ k = "querytype") →
          (setCommand env s (p0 :: p1 :: rest)).1.nslookupType = v
            ∧ (setCommand env s (p0 :: p1 :: rest)).1.recursionDesired = s.recursionDesired)
      ∧ (env.ToLower p1 = "recurse" →
          (setCommand env s (p0 :: p1 :: rest)).1.recursionDesired = true
            ∧ (setCommand env s (p0 :: p1 :: rest)).1.nslookupType = s.nslookupType)
      ∧ (env.ToLower p1 = "norecurse" →
          (setCommand env s (p0 :: p1 :: rest)).1.recursionDesired = false
            ∧ (setCommand env s (p0 :: p1 :: rest)).1.nslookupType = s.nslookupType)
      ∧ ((setCommand env s (p0 :: p1 :: rest)).1.nslookupType ≠ s.nslookupType →
          ∃ k v, strings.Split (env.ToLower p1) '=' = [k, v] ∧ (k = "type" ∨ k = "querytype"))
      ∧ ((setCommand env s (p0 :: p1 :: rest)).1.recursionDesired ≠ s.recursionDesired →
          env.ToLower p1 = "recurse" ∨ env.ToLower p1 = "norecurse") := by
  unfold setCommand
  simp only [List.getElem?_cons_succ, List.getElem?_cons_zero]
  generalize env.ToLower p1 = params
  have hrec : strings.Split "recurse" '=' = ["recurse"] := by decide
  have hnorec : strings.Split "norecurse" '=' = ["norecurse"] := by decide
  cases hpp : strings.Split params '=' with
  | nil => exact absurd hpp (Split_ne_nil _ _)
  | cons a t =>
    cases t with
    | nil =>
      simp only
      by_cases h1 : params = "all"
      · subst h1; simp
      · by_cases h2 : params = "recurse"
        · subst h2; simp
        · by_cases h3 : params = "norecurse"
          · subst h3; simp
          · simp [h1, h2, h3]
    | cons b t2 =>
      cases t2 with
      | nil =>
        simp only
        by_cases hk : a = "type" ∨ a = "querytype"
        · rw [if_pos hk]
          refine ⟨rfl, rfl, ?_, ?_, ?_, ?_, ?_⟩
          · intro k v hkv _
            simp only [List.cons.injEq, and_true] at hkv
            exact ⟨hkv.2, rfl⟩
          · intro hp; subst hp; rw [hrec] at hpp; simp at hpp
          · intro hp; subst hp; rw [hnorec] at hpp; simp at hpp
          · intro _; exact ⟨a, b, rfl, hk⟩
          · intro hne; exact absurd rfl hne
        · rw [if_neg hk]
          refine ⟨rfl, rfl, ?_, ?_, ?_, ?_, ?_⟩
          · intro k v hkv hk2
            simp only [List.cons.injEq, and_true] at hkv
            rw [hkv.1] at hk
            exact absurd hk2 hk
          · intro hp; subst hp; rw [hrec] at hpp; simp at hpp
          · intro hp; subst hp; rw [hnorec] at hpp; simp at hpp
          · intro hne; exact absurd rfl hne
          · intro hne; exact absurd rfl hne
      | cons c t3 =>
        refine ⟨rfl, rfl, ?_, ?_, ?_, ?_, ?_⟩
        · intro k v hkv; simp at hkv
        · intro hp; subst hp; rw [hrec] at hpp; simp at hpp
        · intro hp; subst hp; rw [hnorec] at hpp; simp at hpp
        · intro hne; exact absurd rfl hne
        · intro hne; exact absurd rfl hne

theorem iteration_next (env : Env) (s : Session) (clock : Nat) (text : String)
    (s1 : Session) (clock1 : Nat) (out : List Out) (lookup : Option LookupCall)
    (h : iteration env s clock text = .next s1 clock1 out lookup) :
    ∃ s2 server out2, dispatch env s text = .dolookup s2 server out2
      ∧ s1.origserver = s2.origserver ∧ s1.nslookupType = s2.nslookupType
      ∧ s1.recursionDesired = s2.recursionDesired ∧ s1.domainNameOrCmd = ""
      ∧ ((s2.domainNameOrCmd = "" ∧ lookup = none)
        ∨ (s2.domainNameOrCmd ≠ "" ∧
            lookup = some ⟨s2.recursionDesired, s2.nslookupType, s2.domainNameOrCmd, server⟩)) := by
  unfold iteration at h
  simp only at h
  cases hd : dispatch env s text with
  | exit => rw [hd] at h; simp at h
  | dolookup s2 server out2 =>
    rw [hd] at h
    simp only at h
    by_cases hdom : s2.domainNameOrCmd = ""
    · simp only [hdom, ne_eq, not_true_eq_false, if_false, Iter.next.injEq] at h
      obtain ⟨h1, _, _, h4⟩ := h
      subst h1
      exact ⟨s2, server, out2, rfl, rfl, rfl, rfl, hdom, Or.inl ⟨hdom, h4.symm⟩⟩
    · simp only [ne_eq, hdom, not_false_eq_true, if_true] at h
      split at h
      · simp at h
      · simp only [Iter.next.injEq] at h
        obtain ⟨h1, _, _, h4⟩ := h
        subst h1
        exact ⟨s2, server, out2, rfl, rfl, rfl, rfl, rfl, Or.inr ⟨hdom, h4.symm⟩⟩

theorem command_line_continues (env : Env) (s : Session) (clock : Nat) (text : String)
    (p0 p1 : String) (rest : List String) (hdom : s.domainNameOrCmd = "")
    (hparts : strings.Split (strings.TrimSuffix text ' ') ' ' = p0 :: p1 :: rest)
    (hcmd : env.ToLower p0 = "set" ∨ env.ToLower p0 = "server") :
    ∃ s1 out, iteration env s clock text = .next s1 clock out none := by
  have hd : ∃ s2 out2, dispatch env s text = .dolookup s2 s.origserver out2
      ∧ s2.domainNameOrCmd = "" := by
    unfold dispatch
    simp only [hparts]
    rcases hcmd with h | h
    · rw [if_pos h]
      exact ⟨_, _, rfl, by rw [(setCommand_frame env s p0 p1 rest).2.1, hdom]⟩
    · rw [if_neg (by rw [h]; decide), if_neg (by rw [h]; decide), if_pos h]
      exact ⟨_, _, rfl, hdom⟩
  obtain ⟨s2, out2, hd, hdom2⟩ := hd
  unfold iteration
  simp only [hd, hdom2]
  exact ⟨_, _, rfl⟩

/-- C10: one iteration of the session loop that goes on to the next (from
variables with no lookup pending) changes the base server only on a `server`
line, to the line's second token; the type expression only on a `set` line
whose option is `type=v` or `querytype=v`, to `v`; the recursion flag only
on a `set` line whose option is `recurse` or `norecurse`, to true or false;
each of these lines leaves the two other fields as they are and makes no
lookup.  A line that makes a lookup leaves all three fields as they are: the
lookup of a single token uses the base server, the lookup of a line of
several tokens uses the line's second token as its server, for that lookup
only. -/
theorem session_state_frame (env : Env) (s : Session) (clock : Nat) (text : String)
    (s1 : Session) (clock1 : Nat) (out : List Out) (lookup : Option LookupCall)
    (hdom : s.domainNameOrCmd = "")
    (h : iteration env s clock text = .next s1 clock1 out lookup) :
    s1.domainNameOrCmd = ""
      ∧ (∀ p0 p1 rest, strings.Split (strings.TrimSuffix text ' ') ' ' = p0 :: p1 :: rest →
          env.ToLower p0 = "server" →
            s1.origserver = p1 ∧ s1.nslookupType = s.nslookupType
              ∧ s1.recursionDesired = s.recursionDesired ∧ lookup = none)
      ∧ (∀ p0 p1 rest k v, strings.Split (strings.TrimSuffix text ' ') ' ' = p0 :: p1 :: rest →
          env.ToLower p0 = "set" → strings.Split (env.ToLower p1) '=' = [k, v] →
          (k = "type" ∨ k = "querytype") →
            s1.nslookupType = v ∧ s1.origserver = s.origserver
              ∧ s1.recursionDesired = s.recursionDesired ∧ lookup = none)
      ∧ (∀ p0 p1 rest, strings.Split (strings.TrimSuffix text ' ') ' ' = p0 :: p1 :: rest →
          env.ToLower p0 = "set" → env.ToLower p1 = "recurse" →
            s1.recursionDesired = true ∧ s1.origserver = s.origserver
              ∧ s1.nslookupType = s.nslookupType ∧ lookup = none)
      ∧ (∀ p0 p1 rest, strings.Split (strings.TrimSuffix text ' ') ' ' = p0 :: p1 :: rest →
          env.ToLower p0 = "set" → env.ToLower p1 = "norecurse" →
            s1.recursionDesired = false ∧ s1.origserver = s.origserver
              ∧ s1.nslookupType = s.nslookupType ∧ lookup = none)
      ∧ (s1.origserver ≠ s.origserver →
          ∃ p0 p1 rest, strings.Split (strings.TrimSuffix text ' ') ' ' = p0 :: p1 :: rest
            ∧ env.ToLower p0 = "server" ∧ s1.origserver = p1)
      ∧ (s1.nslookupType ≠ s.nslookupType →
          ∃ p0 p1 rest k v, strings.Split (strings.TrimSuffix text ' ') ' ' = p0 :: p1 :: rest
            ∧ env.ToLower p0 = "set" ∧ strings.Split (env.ToLower p1) '=' = [k, v]
            ∧ (k = "type" ∨ k = "querytype") ∧ s1.nslookupType = v)
      ∧ (s1.recursionDesired ≠ s.recursionDesired →
          ∃ p0 p1 rest, strings.Split (strings.TrimSuffix text ' ') ' ' = p0 :: p1 :: rest
            ∧ env.ToLower p0 = "set"
            ∧ ((env.ToLower p1 = "recurse" ∧ s1.recursionDesired = true)
              ∨ (env.ToLower p1 = "norecurse" ∧ s1.recursionDesired = false)))
      ∧ (∀ call, lookup = some call →
          s1.origserver = s.origserver ∧ s1.nslookupType = s.nslookupType
            ∧ s1.recursionDesired = s.recursionDesired
            ∧ call.nslookupType = s.nslookupType ∧ call.recursionDesired = s.recursionDesired
            ∧ (∀ p0, strings.Split (strings.TrimSuffix text ' ') ' ' = [p0] →
                call.target = p0 ∧ call.server = s.origserver)
            ∧ (∀ p0 p1 rest,
                strings.Split (strings.TrimSuffix text ' ') ' ' = p0 :: p1 :: rest →
                call.target = env.ToLower p0 ∧ call.server = p1)) := by
  obtain ⟨s2, server, out2, hd, ho, hty, hrd, hdom1, hlk⟩ :=
    iteration_next env s clock text s1 clock1 out lookup h
  rw [ho, hty, hrd]
  refine ⟨hdom1, ?_⟩
  unfold dispatch at hd
  simp only at hd
  generalize strings.Split (strings.TrimSuffix text ' ') ' ' = parts at hd ⊢
  match parts, hd with
  | [], hd =>
    simp only [Dispatch.dolookup.injEq] at hd
    obtain ⟨h1, h2, _⟩ := hd
    subst h1
    have hnone : lookup = none := by
      rcases hlk with ⟨_, h⟩ | ⟨h, _⟩
      · exact h
      · exact absurd hdom h
    simp [hnone]
  | [p0], hd =>
    simp only at hd
    split at hd
    · simp at hd
    · split at hd
      · simp only [Dispatch.dolookup.injEq] at hd
        obtain ⟨h1, h2, _⟩ := hd
        subst h1
        have hnone : lookup = none := by
          rcases hlk with ⟨_, h⟩ | ⟨h, _⟩
          · exact h
          · exact absurd hdom h
        simp [hnone]
      · simp only [Dispatch.dolookup.injEq] at hd
        obtain ⟨h1, h2, _⟩ := hd
        subst h1 h2
        refine ⟨by simp, by simp, by simp, by simp, by simp, by simp, by simp, ?_⟩
        intro call hc
        rcases hlk with ⟨_, h⟩ | ⟨_, h⟩
        · rw [h] at hc; simp at hc
        · rw [h] at hc
          injection hc with hc
          subst hc
          simp
  | p0 :: p1 :: rest, hd =>
    simp only at hd
    by_cases hset : env.ToLower p0 = "set"
    · rw [if_pos hset] at hd
      simp only [Dispatch.dolookup.injEq] at hd
      obtain ⟨h1, h2, _⟩ := hd
      subst h1
      obtain ⟨f1, f2, f3, f4, f5, f6, f7⟩ := setCommand_frame env s p0 p1 rest
      have hnone : lookup = none := by
        rcases hlk with ⟨_, h⟩ | ⟨h, _⟩
        · exact h
        · rw [f2] at h; exact absurd hdom h
      refine ⟨?_, ?_, ?_, ?_, ?_, ?_, ?_, ?_⟩
      · intro q0 q1 r hp hs
        simp only [List.cons.injEq] at hp
        rw [← hp.1, hset] at hs
        exact absurd hs (by decide)
      · intro q0 q1 r k v hp _ hkv hk
        simp only [List.cons.injEq] at hp
        rw [← hp.2.1] at hkv
        exact ⟨(f3 k v hkv hk).1, f1, (f3 k v hkv hk).2, hnone⟩
      · intro q0 q1 r hp _ hr
        simp only [List.cons.injEq] at hp
        rw [← hp.2.1] at hr
        exact ⟨(f4 hr).1, f1, (f4 hr).2, hnone⟩
      · intro q0 q1 r hp _ hr
        simp only [List.cons.injEq] at hp
        rw [← hp.2.1] at hr
        exact ⟨(f5 hr).1, f1, (f5 hr).2, hnone⟩
      · intro hne; exact absurd f1 hne
      · intro hne
        obtain ⟨k, v, hkv, hk⟩ := f6 hne
        exact ⟨p0, p1, rest, k, v, rfl, hset, hkv, hk, (f3 k v hkv hk).1⟩
      · intro hne
        rcases f7 hne with hr | hr
        · exact ⟨p0, p1, rest, rfl, hset, Or.inl ⟨hr, (f4 hr).1⟩⟩
        · exact ⟨p0, p1, rest, rfl, hset, Or.inr ⟨hr, (f5 hr).1⟩⟩
      · intro call hc
        rw [hnone] at hc
        simp at hc
    · rw [if_neg hset] at hd
      by_cases hhelp : env.ToLower p0 = "?" ∨ env.ToLower p0 = "help"
      · rw [if_pos hhelp] at hd
        simp only [Dispatch.dolookup.injEq] at hd
        obtain ⟨h1, h2, _⟩ := hd
        subst h1
        have hnone : lookup = none := by
          rcases hlk with ⟨_, h⟩ | ⟨h, _⟩
          · exact h
          · exact absurd hdom h
        refine ⟨?_, ?_, ?_, ?_, by simp, by simp, by simp, by simp [hnone]⟩
        · intro q0 q1 r hp hs
          simp only [List.cons.injEq] at hp
          rw [← hp.1] at hs
          rw [hs] at hhelp
          exact absurd hhelp (by decide)
        · intro q0 q1 r k v hp hs
          simp only [List.cons.injEq] at hp
          rw [← hp.1] at hs
          exact absurd hs hset
        · intro q0 q1 r hp hs
          simp only [List.cons.injEq] at hp
          rw [← hp.1] at hs
          exact absurd hs hset
        · intro q0 q1 r hp hs
          simp only [List.cons.injEq] at hp
          rw [← hp.1] at hs
          exact absurd hs hset
      · rw [if_neg hhelp] at hd
        by_cases hserver : env.ToLower p0 = "server"
        · rw [if_pos hserver] at hd
          simp only [Dispatch.dolookup.injEq] at hd
          obtain ⟨h1, h2, _⟩ := hd
          subst h1
          have hnone : lookup = none := by
            rcases hlk with ⟨_, h⟩ | ⟨h, _⟩
            · exact h
            · exact absurd hdom h
          refine ⟨?_, ?_, ?_, ?_, ?_, by simp, by simp, by simp [hnone]⟩
          · intro q0 q1 r hp _
            simp only [List.cons.injEq] at hp
            exact ⟨hp.2.1, rfl, rfl, hnone⟩
          · intro q0 q1 r k v hp hs
            simp only [List.cons.injEq] at hp
            rw [← hp.1] at hs
            exact absurd hs hset
          · intro q0 q1 r hp hs
            simp only [List.cons.injEq] at hp
            rw [← hp.1] at hs
            exact absurd hs hset
          · intro q0 q1 r hp hs
            simp only [List.cons.injEq] at hp
            rw [← hp.1] at hs
            exact absurd hs hset
          · intro _
            exact ⟨p0, p1, rest, rfl, hserver, rfl⟩
        · rw [if_neg hserver] at hd
          simp only [Dispatch.dolookup.injEq] at hd
          obtain ⟨h1, h2, _⟩ := hd
          subst h1 h2
          refine ⟨?_, ?_, ?_, ?_, by simp, by simp, by simp, ?_⟩
          · intro q0 q1 r hp hs
            simp only [List.cons.injEq] at hp
            rw [← hp.1] at hs
            exact absurd hs hserver
          · intro q0 q1 r k v hp hs
            simp only [List.cons.injEq] at hp
            rw [← hp.1] at hs
            exact absurd hs hset
          · intro q0 q1 r hp hs
            simp only [List.cons.injEq] at hp
            rw [← hp.1] at hs
            exact absurd hs hset
          · intro q0 q1 r hp hs
            simp only [List.cons.injEq] at hp
            rw [← hp.1] at hs
            exact absurd hs hset
          · intro call hc
            rcases hlk with ⟨_, h⟩ | ⟨_, h⟩
            · rw [h] at hc; simp at hc
            · rw [h] at hc
              injection hc with hc
              subst hc
              refine ⟨rfl, rfl, rfl, rfl, rfl, ?_, ?_⟩
              · intro q0 hp; simp at hp
              · intro q0 q1 r hp
                simp only [List.cons.injEq] at hp
                exact ⟨by rw [hp.1], hp.2.1⟩

theorem session_state_frame_witness :
    initialSession.domainNameOrCmd = ""
      ∧ iteration (exampleEnv answering) initialSession 0 "example.com 9.9.9.9"
          = .next initialSession
              (internalnslookup (exampleEnv answering) 0 false "A+AAAA" "example.com"
                "9.9.9.9").clock
              ([.Print "> "]
                ++ (internalnslookup (exampleEnv answering) 0 false "A+AAAA" "example.com"
                    "9.9.9.9").out
                ++ [.Println []])
              (some ⟨false, "A+AAAA", "example.com", "9.9.9.9"⟩)
      ∧ (∀ call, some (⟨false, "A+AAAA", "example.com", "9.9.9.9"⟩ : LookupCall) = some call →
          initialSession.origserver = initialSession.origserver
            ∧ initialSession.nslookupType = initialSession.nslookupType
            ∧ initialSession.recursionDesired = initialSession.recursionDesired
            ∧ call.nslookupType = initialSession.nslookupType
            ∧ call.recursionDesired = initialSession.recursionDesired
            ∧ (∀ p0, strings.Split (strings.TrimSuffix "example.com 9.9.9.9" ' ') ' ' = [p0] →
                call.target = p0 ∧ call.server = initialSession.origserver)
            ∧ (∀ p0 p1 rest,
                strings.Split (strings.TrimSuffix "example.com 9.9.9.9" ' ') ' '
                  = p0 :: p1 :: rest →
                call.target = (exampleEnv answering).ToLower p0 ∧ call.server = p1)) :=
  ⟨rfl, by decide,
    (session_state_frame (exampleEnv answering) initialSession 0 "example.com 9.9.9.9"
      initialSession
      (internalnslookup (exampleEnv answering) 0 false "A+AAAA" "example.com" "9.9.9.9").clock
      ([.Print "> "]
        ++ (internalnslookup (exampleEnv answering) 0 false "A+AAAA" "example.com"
            "9.9.9.9").out
        ++ [.Println []])
      (some ⟨false, "A+AAAA", "example.com", "9.9.9.9"⟩) rfl (by decide)).2.2.2.2.2.2.2.2⟩

theorem iteration_eof (env : Env) (s : Session) (clock : Nat) (hdom : s.domainNameOrCmd = "") :
    iteration env s clock "" = .next s clock [.Print "> "] none := by
  have h1 : strings.Split (strings.TrimSuffix "" ' ') ' ' = [""] := by decide
  have h2 : env.ToLower "" = "" := rfl
  have hs : { s with domainNameOrCmd := "" } = s := by
    cases s
    simp only at hdom
    subst hdom
    rfl
  have hd : dispatch env s "" = .dolookup s s.origserver [] := by
    unfold dispatch
    simp only [h1, h2]
    rw [if_neg (by decide), if_neg (by decide), hs]
  unfold iteration
  simp [hd, hdom]

theorem sessionLoop_eof (env : Env) :
    ∀ (fuel : Nat) (s : Session) (clock : Nat), s.domainNameOrCmd = "" →
      sessionLoop env fuel s clock []
        = { status := .running, session := s, out := List.replicate fuel (.Print "> "),
            lookups := [] } := by
  intro fuel
  induction fuel with
  | zero => intro s clock _; rfl
  | succ n ih =>
    intro s clock hdom
    unfold sessionLoop
    simp only [scan, iteration_eof env s clock hdom, ih s clock hdom]
    simp [List.replicate_succ]

/-- C9, on the input with no line at all: the loop of `interactiveNSlookup`
does not end.  After any number of iterations it is still running, having
printed one prompt per iteration and looked nothing up; a line `exit` would
have ended it at once. -/
theorem end_of_input_never_returns (env : Env) (fuel : Nat) :
    (interactiveNSlookup env fuel []).status = .running
      ∧ (interactiveNSlookup env fuel []).out = List.replicate fuel (.Print "> ")
      ∧ (interactiveNSlookup env fuel []).lookups = []
      ∧ (interactiveNSlookup (exampleEnv answering) (fuel + 1) ["exit"]).status = .returned := by
  unfold interactiveNSlookup
  rw [sessionLoop_eof env fuel initialSession 0 rfl]
  refine ⟨rfl, rfl, rfl, ?_⟩
  unfold sessionLoop
  have : iteration (exampleEnv answering) initialSession 0 "exit" = .exit [.Print "> "] := by
    decide
  simp only [scan, this]

/-- C2, on the lookup of `example.com` with type `A+AAAA` when the `A`
exchange answers and the `AAAA` exchange fails without a response: the lookup
panics in the `AAAA` sub-query, `printAnswer` is never reached and nothing
but the server lines is printed; with the tokens in the other order the `A`
sub-query is not even issued. -/
theorem failed_exchange_aborts_lookup :
    (internalnslookup (exampleEnv failingButA) 0 false "A+AAAA" "example.com" "8.8.8.8").panicked
        = true
      ∧ (internalnslookup (exampleEnv failingButA) 0 false "A+AAAA" "example.com"
          "8.8.8.8").handed = none
      ∧ (internalnslookup (exampleEnv failingButA) 0 false "A+AAAA" "example.com" "8.8.8.8").out
        = [.Println ["Server:  ", "dns.google."], .Println ["Address: ", "8.8.8.8"],
            .Println []]
      ∧ (internalnslookup (exampleEnv failingButA) 0 false "A+AAAA" "example.com"
          "8.8.8.8").log.map (fun e => (e.token, e.r.map (fun r => r.Answer)))
        = [("A", some [.A "93.184.216.34"]), ("AAAA", none)]
      ∧ (internalnslookup (exampleEnv failingButA) 0 false "AAAA+A" "example.com"
          "8.8.8.8").log.map (fun e => (e.token, e.r.map (fun r => r.Answer)))
        = [("AAAA", none)]
      ∧ (internalnslookup (exampleEnv failingButA) 0 false "AAAA+A" "example.com"
          "8.8.8.8").panicked = true := by
  decide

/-- C7, on the lookup of `1.2.3.4` with type `PTR+A`: the `A` sub-query that
follows the `PTR` sub-query asks for the reverse name, not for `1.2.3.4.`;
and with type `PTR+PTR` the second sub-query asks for the reverse of the
reverse name. -/
theorem reverse_name_kept_for_later_subqueries :
    (internalnslookup (exampleEnv answering) 0 false "PTR+A" "1.2.3.4" "8.8.8.8").log.map
        (fun e => (e.dnslookupType, e.calls.map (fun c => c.msg.Question.map (fun q => q.Name))))
        = [(TypePTR, [["4.3.2.1.in-addr.arpa."]]), (TypeA, [["4.3.2.1.in-addr.arpa."]])]
      ∧ (internalnslookup (exampleEnv answering) 0 false "PTR+PTR" "1.2.3.4" "8.8.8.8").log.map
        (fun e => (e.dnslookupType, e.calls.map (fun c => c.msg.Question.map (fun q => q.Name))))
        = [(TypePTR, [["4.3.2.1.in-addr.arpa."]]), (TypePTR, [["1.2.3.4.in-addr.arpa."]])]
      ∧ (internalnslookup (exampleEnv answering) 0 false "A" "1.2.3.4" "8.8.8.8").log.map
        (fun e => (e.dnslookupType, e.calls.map (fun c => c.msg.Question.map (fun q => q.Name))))
        = [(TypeA, [["1.2.3.4."]])] := by
  decide

/-- C8, in the initial session, whose recursion flag is false (and after
`set norecurse`): the lookup of `example.com` sends its `A` and its `AAAA`
question with the recursion-desired flag true; so does a `CNAME` question,
while an `MX` question carries the session's flag. -/
theorem address_questions_ignore_recursion_flag :
    (interactiveNSlookup (exampleEnv answering) 3 ["set norecurse", "example.com", "exit"]).lookups
        = [⟨false, "A+AAAA", "example.com", "8.8.8.8"⟩]
      ∧ (internalnslookup (exampleEnv answering) 0 false "A+AAAA" "example.com"
          "8.8.8.8").log.map
            (fun e => (e.dnslookupType, e.calls.map (fun c => c.msg.RecursionDesired)))
        = [(TypeA, [true]), (TypeAAAA, [true])]
      ∧ (internalnslookup (exampleEnv answering) 0 false "CNAME+MX" "example.com"
          "8.8.8.8").log.map
            (fun e => (e.dnslookupType, e.calls.map (fun c => c.msg.RecursionDesired)))
        = [(TypeCNAME, [true]), (TypeMX, [false])] := by
  decide

end Nslookup
